import Mathlib

/-!
Verification of the MQLite MQTT 5.0 client core (src/mqtt_client.c, src/utf8.c)
against its natural-language specification.

Conventions of the shallow embedding:
* C byte buffers and C strings are `List Nat` whose entries are byte values;
  wherever the C code stores a value into an 8-bit object the model reduces
  modulo 256, mirroring the hardware truncation.
* A C pointer that may be `NULL` is an `Option`; `none` is the null pointer.
* Fallible C functions returning a negative status are modelled with
  `Except MqttError Unit` (or an `Option` of the identifier they produce).
* The repository's `mqtt_const.h` and `status.h` are not part of the provided
  sources; the packet-type discriminants, property identifiers and the
  configuration constant `MQTT_RECEIVE_MAXIMUM` used below are modelled from
  the specification (spec section 3: CONNECT=1 through AUTH=15, UNKNOWN=0;
  spec section 6.1: the property-identifier registry; section 6.3 and the
  README: `MQTT_RECEIVE_MAXIMUM` 32) and the error names from spec section 7.
-/

namespace MQLite

/-- Modelled from the spec: `mqtt_packet_type` lives in the missing
`mqtt_const.h`; spec section 3 fixes the discriminants to the MQTT 5.0
control-packet-type values (CONNECT=1 ... AUTH=15) with `UNKNOWN=0`. -/
inductive PacketType where
  | UNKNOWN
  | CONNECT
  | CONNACK
  | PUBLISH
  | PUBACK
  | PUBREC
  | PUBREL
  | PUBCOMP
  | SUBSCRIBE
  | SUBACK
  | UNSUBSCRIBE
  | UNSUBACK
  | PINGREQ
  | PINGRESP
  | DISCONNECT
  | AUTH
  deriving DecidableEq

/-- Numeric discriminant of a packet type (spec section 3). -/
def PacketType.val : PacketType → Nat
  | .UNKNOWN => 0
  | .CONNECT => 1
  | .CONNACK => 2
  | .PUBLISH => 3
  | .PUBACK => 4
  | .PUBREC => 5
  | .PUBREL => 6
  | .PUBCOMP => 7
  | .SUBSCRIBE => 8
  | .SUBACK => 9
  | .UNSUBSCRIBE => 10
  | .UNSUBACK => 11
  | .PINGREQ => 12
  | .PINGRESP => 13
  | .DISCONNECT => 14
  | .AUTH => 15

/-- Modelled from the spec: error taxonomy of the missing `status.h`
(spec section 7); the numeric values are irrelevant to the claims, only the
identity of each error kind is used. -/
inductive MqttError where
  | nullReference
  | notConnected
  | outOfMemory
  | outOfResource
  | invalidEncoding
  | malformedPacket
  | invalidPacketSize
  | unknownIdentifier
  | unexpectedPacketType
  | invalidPacketId
  | invalidQoS
  | qosNotSupported
  | retainNotSupported
  | invalidTopic
  | unsupported
  | serverDeclined
  | hostUnavailable
  | hwFailure
  | swFailure
  deriving DecidableEq

/-- Modelled from the spec: `MQTT_RECEIVE_MAXIMUM` from the missing
`mqtt_const.h`; spec section 6.3 and the README give 32. -/
def MQTT_RECEIVE_MAXIMUM : Nat := 32

/-- `BIT(n)` from common.h. -/
def BIT (n : Nat) : Nat := 1 <<< n

/-- `TST(n, mask)` from common.h: `((n) & (mask)) == (mask)`. -/
def TST (n mask : Nat) : Bool := (n &&& mask) == mask

/-- `CLR(n, mask)` from common.h, `(n) &= ~(mask)`, on the 16-bit
`expected_ptypes` field: complement taken within the uint16 width. -/
def CLR16 (n mask : Nat) : Nat := n &&& (0xFFFF ^^^ mask)

/-! ## Codec: variable-length integers (mqtt_client.c lines 147-189) -/

/-- One iteration bound for `pack_variable_size`: the loop runs at most
`size + 1` times because `size / 128 < size` whenever it stays positive. The
`fuel` argument only bounds the recursion so that the definition is
structural (and kernel-evaluable); with `fuel ≥ size` it never runs out. -/
def pack_variable_size_go : Nat → Nat → List Nat
  | 0, size => [size % 128]
  | fuel + 1, size =>
    let encoded := size % 128
    let rest := size / 128
    if rest > 0 then (encoded ||| 0x80) :: pack_variable_size_go fuel rest
    else [encoded]

/-- `pack_variable_size` from mqtt_client.c: do-while loop emitting
`size % 128` (the C writes `size & 0x7f`, commented "size MOD 128") with the
continuation bit 0x80 set whenever `size >> 7` (= `size / 128`) is still
positive; the body runs at least once, so 0 encodes as `[0]`. -/
def pack_variable_size (size : Nat) : List Nat :=
  pack_variable_size_go size size

/-- `unpack_variable_size` from mqtt_client.c. The C source declares a second
`uint8_t encoded_byte` INSIDE the do-while body, shadowing the outer variable
that the loop condition `(encoded_byte & 0x80) != 0 && shift < 4` reads; the
outer variable stays 0, so the condition is always false and exactly one
iteration runs: the function returns the first byte's low 7 bits
(`value = (b & 0x7F) * 1`). The model reproduces that behaviour. -/
def unpack_variable_size (bytes : List Nat) : Nat :=
  (bytes.headD 0 % 256) &&& 0x7F

/-- `get_variable_size_byte_count` from mqtt_client.c. -/
def get_variable_size_byte_count (len : Nat) : Nat :=
  if len ≤ 127 then 1
  else if len ≤ 16383 then 2
  else if len ≤ 2097151 then 3
  else 4

/-- `estimate_fixed_header_size` from mqtt_client.c. -/
def estimate_fixed_header_size (len : Nat) : Nat :=
  get_variable_size_byte_count len + 1

/-! ## Codec: bytes, words, strings, blobs (mqtt_client.c lines 40-126) -/

/-- `pack_byte`: the argument is a `uint8_t`, so the stored value is the low
byte. -/
def pack_byte (data : Nat) : List Nat := [data % 256]

/-- `pack_word`: big-endian 16-bit write via two `pack_byte` calls. -/
def pack_word (data : Nat) : List Nat :=
  pack_byte (data >>> 8) ++ pack_byte data

/-- `pack_dword`: big-endian 32-bit write via four `pack_byte` calls. -/
def pack_dword (data : Nat) : List Nat :=
  pack_byte (data >>> 24) ++ pack_byte (data >>> 16) ++
    pack_byte (data >>> 8) ++ pack_byte data

/-- `pack_string`: 2-byte big-endian `strlen` prefix followed by the bytes. -/
def pack_string (data : List Nat) : List Nat :=
  pack_word data.length ++ data.flatMap pack_byte

/-- `struct mqtt_blob`: `data` is a possibly-null pointer, `len` an
independent `uint16_t` length field. -/
structure Blob where
  data : Option (List Nat)
  len : Nat

/-- The all-null, zero-length blob (calloc state). -/
def Blob.empty : Blob := ⟨none, 0⟩

/-- `pack_binary`: writes the 2-byte length, then — only when the data
pointer is non-null — `len` bytes read from it (a short backing array reads
as zero here; the C would read out of bounds). -/
def pack_binary (blob : Blob) : List Nat :=
  pack_word blob.len ++
    match blob.data with
    | none => []
    | some d => (List.range blob.len).map (fun i => d.getD i 0 % 256)

/-- The `STRLEN` macro from mqtt_client.c:
`((s) ? strlen(s) + 2 : 2)`; a null string still counts its length prefix. -/
def STRLEN : Option (List Nat) → Nat
  | none => 2
  | some s => s.length + 2

/-- The `BLEN` macro from mqtt_client.c: `((b).len + 2)`. -/
def BLEN (b : Blob) : Nat := b.len + 2

/-- `write_fixed_header` from mqtt_client.c. -/
def write_fixed_header (ptype : PacketType) (flags len : Nat) : List Nat :=
  pack_byte (((ptype.val &&& 0x0F) <<< 4) ||| (flags &&& 0x0F)) ++
    pack_variable_size len

/-! ## UTF-8 validator (utf8.c) -/

/-- Value of `str[i]` when `str` is a `const char *` on the library's default
desktop target (x86-64 gcc/clang, where plain `char` is signed): the byte is
reinterpreted as a signed 8-bit integer before the comparison against
`0x7F`. -/
def signedChar (b : Nat) : Int :=
  if b % 256 < 128 then (b % 256 : Int) else (b % 256 : Int) - 256

/-- Leading-byte classification of `is_valid_utf8` (utf8.c lines 33-41),
performed on `unsigned char first_byte`; 0 stands for "invalid first byte". -/
def utf8_byte_count (first_byte : Nat) : Nat :=
  if first_byte &&& 0xE0 == 0xC0 then 2
  else if first_byte &&& 0xF0 == 0xE0 then 3
  else if first_byte &&& 0xF8 == 0xF0 then 4
  else 0

/-- The multi-byte checks of one `is_valid_utf8` loop iteration (utf8.c
lines 29-96), reached when the first byte fails the ASCII test: byte-count
classification, the truncation check `i + byte_count > length`, continuation
bytes `10xxxxxx`, the overlong checks, the surrogate range for 3-byte forms
and the `> U+10FFFF` check for 4-byte forms.  Returns the number of
continuation bytes consumed (`byte_count - 1`) on success and `none` where
the C returns `false`.  All masks keep only bits below bit 8, so the signed
`char` reads of the C agree with the unsigned byte values used here. -/
def utf8_multi_check (first_byte : Nat) (rest : List Nat) : Option Nat :=
  let byte_count := utf8_byte_count first_byte
  if byte_count == 0 then none
  else if rest.length + 1 < byte_count then none
  else if !((List.range (byte_count - 1)).all
      (fun j => (rest.getD j 0 % 256) &&& 0xC0 == 0x80)) then none
  else if byte_count == 2 && first_byte &&& 0x1E == 0 then none
  else if byte_count == 3 && first_byte == 0xE0 &&
      (rest.getD 0 0 % 256) &&& 0x20 == 0 then none
  else if byte_count == 4 && first_byte == 0xF0 &&
      (rest.getD 0 0 % 256) &&& 0x30 == 0 then none
  else if byte_count == 3 &&
      (let codepoint := ((first_byte &&& 0x0F) <<< 12) |||
        (((rest.getD 0 0 % 256) &&& 0x3F) <<< 6) |||
        ((rest.getD 1 0 % 256) &&& 0x3F)
       0xD800 ≤ codepoint && codepoint ≤ 0xDFFF) then none
  else if byte_count == 4 &&
      (let codepoint := ((first_byte &&& 0x07) <<< 18) |||
        (((rest.getD 0 0 % 256) &&& 0x3F) <<< 12) |||
        (((rest.getD 1 0 % 256) &&& 0x3F) <<< 6) |||
        ((rest.getD 2 0 % 256) &&& 0x3F)
       decide (codepoint > 0x10FFFF)) then none
  else some (byte_count - 1)

/-- Loop body of `is_valid_utf8`, structurally recursive over a fuel bound
(each iteration consumes at least one byte, so `fuel ≥ length` suffices; the
fuel never runs out on the intended calls and exists only to make the
definition kernel-evaluable). -/
def is_valid_utf8_go : Nat → List Nat → Bool
  | _, [] => true
  | 0, _ :: _ => true
  | fuel + 1, b :: rest =>
    if signedChar b ≤ 0x7F then
      is_valid_utf8_go fuel rest
    else
      match utf8_multi_check (b % 256) rest with
      | none => false
      | some k => is_valid_utf8_go fuel (rest.drop k)

/-- `is_valid_utf8` from utf8.c, translated clause by clause.  The first test
is `str[i] <= 0x7F` on plain `char`: with the default desktop target's signed
`char` every byte satisfies it (a signed 8-bit value is at most 127), so the
single-byte branch is taken for every byte and the multi-byte machinery in
`utf8_multi_check` is dead code. -/
def is_valid_utf8 (l : List Nat) : Bool :=
  is_valid_utf8_go l.length l

/-- Loop body of `is_valid_utf8_uchar` (same fuel device as
`is_valid_utf8_go`); the multi-byte checks are byte-for-byte those of
`utf8_multi_check`. -/
def is_valid_utf8_uchar_go : Nat → List Nat → Bool
  | _, [] => true
  | 0, _ :: _ => true
  | fuel + 1, b :: rest =>
    if b % 256 ≤ 0x7F then
      is_valid_utf8_uchar_go fuel rest
    else
      match utf8_multi_check (b % 256) rest with
      | none => false
      | some k => is_valid_utf8_uchar_go fuel (rest.drop k)

/-- The validator as it behaves on a target whose plain `char` is unsigned
(e.g. the Raspberry Pi Pico build): identical to `is_valid_utf8` except that
the first comparison `str[i] <= 0x7F` now reads the unsigned byte, so bytes
at and above 0x80 reach the multi-byte checks.  This is the behaviour the
comments in utf8.c describe. -/
def is_valid_utf8_uchar (l : List Nat) : Bool :=
  is_valid_utf8_uchar_go l.length l

/-! ## The inbound fixed-header check (mqtt_client.c lines 2527-2546) -/

/-- Outcome of `mqtt_process_packet` as far as the claims observe it: the two
early rejections, or the hand-off to `process_packet` with the decoded type
nibble and flag nibble. -/
inductive ProcOutcome where
  | invalidPacketSize
  | unexpectedPacketType
  | dispatched (ptype flags : Nat)
  deriving DecidableEq

/-- `mqtt_process_packet` from mqtt_client.c, up to the dispatch: reads the
fixed-header byte, decodes the remaining length with the (one-byte, see
`unpack_variable_size`) varint decoder, compares it against
`inp.len - get_variable_size_byte_count(remaining_len) - 1`, then tests the
type bit against `expected_ptypes`.  The subtraction is the C `size_t`
subtraction, which agrees with truncated subtraction on `Nat` whenever the
buffer holds at least the two bytes the function has already read. -/
def mqtt_process_packet (buf : List Nat) (expected_ptypes : Nat) :
    ProcOutcome :=
  let fixed_header := buf.headD 0 % 256
  let ptype := fixed_header >>> 4
  let remaining_len := unpack_variable_size (buf.drop 1)
  if remaining_len =
      buf.length - get_variable_size_byte_count remaining_len - 1 then
    if TST expected_ptypes (BIT ptype) then
      .dispatched ptype (fixed_header &&& 0x0F)
    else .unexpectedPacketType
  else .invalidPacketSize

/-! ## Property lists and packet builders (mqtt_client.c lines 255-1253) -/

/-- `struct mqtt_user_property`: key/value C strings. -/
structure UserProp where
  key : List Nat
  value : List Nat

/-- The `stat->publish` sub-struct of `struct mqtt_client` (outbound PUBLISH
properties); zero/null fields suppress the corresponding property. -/
structure PublishProps where
  payload_format_indicator : Nat
  message_expiry_interval : Nat
  content_type : Option (List Nat)
  response_topic : Option (List Nat)
  correlation_data : Blob
  topic_alias : Nat
  subscription_identifier : Nat
  user_properties : List UserProp

/-- The all-zero `stat->publish` produced by `calloc` in
`mqtt_create_client`. -/
def PublishProps.zero : PublishProps :=
  ⟨0, 0, none, none, Blob.empty, 0, 0, []⟩

/-- Modelled from the spec: the PUBLISH property identifiers of the missing
`mqtt_const.h`, from the registry table in spec section 6.1. -/
def MQTT_PUB_PAYLOAD_FORMAT_INDICATOR_ID : Nat := 0x01
def MQTT_PUB_MESSAGE_EXPIRY_INTERVAL_ID : Nat := 0x02
def MQTT_PUB_CONTENT_TYPE_ID : Nat := 0x03
def MQTT_PUB_RESPONSE_TOPIC_ID : Nat := 0x08
def MQTT_PUB_CORRELATION_DATA_ID : Nat := 0x09
def MQTT_PUB_SUBSCRIPTION_IDENTIFIER_ID : Nat := 0x0B
def MQTT_PUB_TOPIC_ALIAS_ID : Nat := 0x23
def MQTT_PUB_USER_PROPERTY_ID : Nat := 0x26
def MQTT_USER_PROPERTY_ID : Nat := 0x26
def MQTT_PUBREL_REASON_STRING_ID : Nat := 0x1F

/-- `estimate_publish_prop_size` from mqtt_client.c. -/
def estimate_publish_prop_size (p : PublishProps) : Nat :=
  (if p.payload_format_indicator ≠ 0 then 2 else 0) +
  (if p.message_expiry_interval ≠ 0 then 5 else 0) +
  (if p.content_type.isSome then 1 + STRLEN p.content_type else 0) +
  (if p.response_topic.isSome then 1 + STRLEN p.response_topic else 0) +
  (if p.correlation_data.len ≠ 0 then 1 + BLEN p.correlation_data else 0) +
  (if p.topic_alias ≠ 0 then 3 else 0) +
  (if p.subscription_identifier ≠ 0 then
    1 + get_variable_size_byte_count p.subscription_identifier else 0) +
  (p.user_properties.map
    (fun up => 1 + STRLEN (some up.key) + STRLEN (some up.value))).sum

/-- `pack_publish_props` from mqtt_client.c: the property-length varint
followed by each present property. -/
def pack_publish_props (p : PublishProps) : List Nat :=
  pack_variable_size (estimate_publish_prop_size p) ++
  (if p.payload_format_indicator ≠ 0 then
    pack_byte MQTT_PUB_PAYLOAD_FORMAT_INDICATOR_ID ++
      pack_byte p.payload_format_indicator else []) ++
  (if p.message_expiry_interval ≠ 0 then
    pack_byte MQTT_PUB_MESSAGE_EXPIRY_INTERVAL_ID ++
      pack_dword p.message_expiry_interval else []) ++
  (match p.content_type with
   | none => []
   | some ct => pack_byte MQTT_PUB_CONTENT_TYPE_ID ++ pack_string ct) ++
  (match p.response_topic with
   | none => []
   | some rt => pack_byte MQTT_PUB_RESPONSE_TOPIC_ID ++ pack_string rt) ++
  (if p.correlation_data.len ≠ 0 then
    pack_byte MQTT_PUB_CORRELATION_DATA_ID ++
      pack_binary p.correlation_data else []) ++
  (if p.topic_alias ≠ 0 then
    pack_byte MQTT_PUB_TOPIC_ALIAS_ID ++ pack_word p.topic_alias else []) ++
  (if p.subscription_identifier ≠ 0 then
    pack_byte MQTT_PUB_SUBSCRIPTION_IDENTIFIER_ID ++
      pack_variable_size p.subscription_identifier else []) ++
  (p.user_properties.flatMap
    (fun up => pack_byte MQTT_PUB_USER_PROPERTY_ID ++
      pack_string up.key ++ pack_string up.value))

/-- `struct mqtt_pub_packet`. -/
structure mqtt_pub_packet where
  topic : List Nat
  payload : Blob
  qos : Nat
  retain : Bool
  dup : Bool
  packet_id : Nat

/-- `make_publish` from mqtt_client.c, the remaining length computed by the
first pass. -/
def make_publish_rsize (p : PublishProps) (msg : mqtt_pub_packet) : Nat :=
  let prop_size := estimate_publish_prop_size p
  STRLEN (some msg.topic) + get_variable_size_byte_count prop_size +
    prop_size + (if msg.qos > 0 then 2 else 0) + msg.payload.len

/-- The bytes read from the payload blob by `make_publish`'s second pass:
written only when the data pointer is non-null and `len > 0`. -/
def publish_payload_bytes (b : Blob) : List Nat :=
  match b.data with
  | none => []
  | some d => if b.len > 0 then
      (List.range b.len).map (fun i => d.getD i 0 % 256) else []

/-- `make_publish` from mqtt_client.c, the bytes the second pass writes:
fixed header (`PUBLISH`, flags `(dup<<3)|(qos<<1)|retain`), topic,
packet id when `qos > 0`, properties, raw payload. -/
def make_publish_bytes (p : PublishProps) (msg : mqtt_pub_packet) : List Nat :=
  let flags := (if msg.dup then BIT 3 else 0) ||| (if msg.retain then BIT 0 else 0) |||
    ((msg.qos &&& 0x03) <<< 1)
  write_fixed_header .PUBLISH flags (make_publish_rsize p msg) ++
    pack_string msg.topic ++
    (if msg.qos > 0 then pack_word msg.packet_id else []) ++
    pack_publish_props p ++
    publish_payload_bytes msg.payload

/-! ## The CONNECT builder (mqtt_client.c lines 255-311, 456-520, 1011-1060) -/

/-- Modelled from the spec: CONNECT/Will property identifiers of the missing
`mqtt_const.h`, from the registry table in spec section 6.1, and the
protocol version (spec section 4.4: version 5). -/
def MQTT_CON_SESSION_EXPIRY_INTERVAL_ID : Nat := 0x11
def MQTT_CON_RECEIVE_MAXIMUM_ID : Nat := 0x21
def MQTT_CON_MAXIMUM_PACKET_SIZE_ID : Nat := 0x27
def MQTT_CON_TOPIC_ALIAS_MAXIMUM_ID : Nat := 0x22
def MQTT_CON_REQUEST_RESPONSE_INFO_ID : Nat := 0x19
def MQTT_CON_REQUEST_PROBLEM_INF_ID : Nat := 0x17
def MQTT_CON_AUTH_METHOD_ID : Nat := 0x15
def MQTT_CON_AUTH_DATA_ID : Nat := 0x16
def MQTT_WILL_DELAY_INTERVAL_ID : Nat := 0x18
def MQTT_WILL_FORMAT_INDICATOR_ID : Nat := 0x01
def MQTT_WILL_MSG_EXPIRY_INTERVAL_ID : Nat := 0x02
def MQTT_WILL_CONTENT_TYPE_ID : Nat := 0x03
def MQTT_WILL_RESPONSE_TOPIC_ID : Nat := 0x08
def MQTT_WILL_CORELATION_DATA_ID : Nat := 0x09
def MQTT_PROTOCOL_VERSION : Nat := 5

/-- The `will` sub-struct of `stat->connect`. -/
structure WillProps where
  delay_interval : Nat
  payload_format_indicator : Nat
  message_expiry_delay : Nat
  topic : Option (List Nat)
  content_type : Option (List Nat)
  response_topic : Option (List Nat)
  correlation_data : Blob
  payload : Blob

/-- The `stat->connect` sub-struct of `struct mqtt_client` (the fields
`make_connect` and the CONNECT/Will property functions read). -/
structure ConnectState where
  un_flag : Bool
  pw_flag : Bool
  req_prob_inf : Bool
  req_res_inf : Bool
  will_flag : Bool
  clean_start : Bool
  will_qos : Nat
  recv_max : Nat
  topic_alias_max : Nat
  max_packet_size : Nat
  keep_alive : Nat
  session_expiry_interval : Nat
  will : WillProps
  user : Option (List Nat)
  passwd : Option (List Nat)
  client_id : Option (List Nat)
  user_properties : List UserProp
  auth_method : Option (List Nat)
  auth_data : Blob

/-- The all-zero `stat->connect` produced by `calloc`. -/
def ConnectState.zero : ConnectState :=
  ⟨false, false, false, false, false, false, 0, 0, 0, 0, 0, 0,
    ⟨0, 0, 0, none, none, none, Blob.empty, Blob.empty⟩,
    none, none, none, [], none, Blob.empty⟩

/-- `estimate_conn_prop_size` from mqtt_client.c.  Note two quirks kept from
the source: the auth-data term is `1 + auth_data.len` (the 2-byte length
prefix that `pack_binary` writes is not counted), and the user properties
are counted here although `pack_conn_props` never writes them. -/
def estimate_conn_prop_size (c : ConnectState) : Nat :=
  (if c.session_expiry_interval ≠ 0 then 5 else 0) +
  (if c.recv_max ≠ 0 then 3 else 0) +
  (if c.max_packet_size ≠ 0 then 5 else 0) +
  (if c.topic_alias_max ≠ 0 then 3 else 0) +
  (if c.req_res_inf then 2 else 0) +
  (if c.req_prob_inf then 2 else 0) +
  (if c.auth_method.isSome then 1 + STRLEN c.auth_method else 0) +
  (if c.auth_data.data.isSome ∧ c.auth_data.len ≠ 0 then
    1 + c.auth_data.len else 0) +
  (c.user_properties.map
    (fun up => STRLEN (some up.key) + (STRLEN (some up.value) + 1))).sum

/-- `estimate_will_prop_size` from mqtt_client.c. -/
def estimate_will_prop_size (c : ConnectState) : Nat :=
  (if c.will.delay_interval ≠ 0 then 5 else 0) +
  (if c.will.payload_format_indicator ≠ 0 then 2 else 0) +
  (if c.will.message_expiry_delay ≠ 0 then 5 else 0) +
  (if c.will.content_type.isSome then STRLEN c.will.content_type + 1 else 0) +
  (if c.will.response_topic.isSome then STRLEN c.will.response_topic + 1 else 0) +
  (if c.will.correlation_data.len ≠ 0 then BLEN c.will.correlation_data + 1 else 0)

/-- `pack_conn_props` from mqtt_client.c: writes the varint of the full
estimate, then the properties through auth data — and, unlike the estimator,
no user properties. -/
def pack_conn_props (c : ConnectState) : List Nat :=
  pack_variable_size (estimate_conn_prop_size c) ++
  (if c.session_expiry_interval ≠ 0 then
    pack_byte MQTT_CON_SESSION_EXPIRY_INTERVAL_ID ++
      pack_dword c.session_expiry_interval else []) ++
  (if c.recv_max ≠ 0 then
    pack_byte MQTT_CON_RECEIVE_MAXIMUM_ID ++ pack_word c.recv_max else []) ++
  (if c.max_packet_size ≠ 0 then
    pack_byte MQTT_CON_MAXIMUM_PACKET_SIZE_ID ++
      pack_dword c.max_packet_size else []) ++
  (if c.topic_alias_max ≠ 0 then
    pack_byte MQTT_CON_TOPIC_ALIAS_MAXIMUM_ID ++
      pack_word c.topic_alias_max else []) ++
  (if c.req_res_inf then
    pack_byte MQTT_CON_REQUEST_RESPONSE_INFO_ID ++ pack_byte 1 else []) ++
  (if c.req_prob_inf then
    pack_byte MQTT_CON_REQUEST_PROBLEM_INF_ID ++ pack_byte 1 else []) ++
  (match c.auth_method with
   | none => []
   | some am => pack_byte MQTT_CON_AUTH_METHOD_ID ++ pack_string am) ++
  (if c.auth_data.data.isSome ∧ c.auth_data.len ≠ 0 then
    pack_byte MQTT_CON_AUTH_DATA_ID ++ pack_binary c.auth_data else [])

/-- `pack_will_props` from mqtt_client.c. -/
def pack_will_props (c : ConnectState) : List Nat :=
  pack_variable_size (estimate_will_prop_size c) ++
  (if c.will.delay_interval ≠ 0 then
    pack_byte MQTT_WILL_DELAY_INTERVAL_ID ++
      pack_dword c.will.delay_interval else []) ++
  (if c.will.payload_format_indicator ≠ 0 then
    pack_byte MQTT_WILL_FORMAT_INDICATOR_ID ++
      pack_byte c.will.payload_format_indicator else []) ++
  (if c.will.message_expiry_delay ≠ 0 then
    pack_byte MQTT_WILL_MSG_EXPIRY_INTERVAL_ID ++
      pack_dword c.will.message_expiry_delay else []) ++
  (match c.will.content_type with
   | none => []
   | some ct => pack_byte MQTT_WILL_CONTENT_TYPE_ID ++ pack_string ct) ++
  (match c.will.response_topic with
   | none => []
   | some rt => pack_byte MQTT_WILL_RESPONSE_TOPIC_ID ++ pack_string rt) ++
  (if c.will.correlation_data.len ≠ 0 then
    pack_byte MQTT_WILL_CORELATION_DATA_ID ++
      pack_binary c.will.correlation_data else [])

/-- The connect-flags byte computed at the top of `make_connect`. -/
def make_connect_flags (c : ConnectState) : Nat :=
  ((c.will_qos &&& 0x03) <<< 2) |||
  (if c.clean_start then BIT 1 else 0) |||
  (if c.will_flag then BIT 2 else 0) |||
  (if c.pw_flag then BIT 6 else 0) |||
  (if c.un_flag then BIT 7 else 0)

/-- `make_connect` from mqtt_client.c, the remaining length computed by the
size pass.  `plen` is a `uint8_t` in the source, hence the `% 256`; the
user-name and password lengths are added unconditionally on their flags. -/
def make_connect_rsize (c : ConnectState) : Nat :=
  let plen := estimate_conn_prop_size c % 256
  let r1 := 10 + plen + STRLEN c.client_id + get_variable_size_byte_count plen
  let r2 := if c.will_flag then
      let wlen := estimate_will_prop_size c % 256
      r1 + wlen + STRLEN c.will.topic + BLEN c.will.payload +
        get_variable_size_byte_count wlen
    else r1
  let r3 := if c.un_flag then r2 + STRLEN c.user else r2
  if c.pw_flag then r3 + STRLEN c.passwd else r3

/-- `make_connect` from mqtt_client.c, the bytes the write pass puts after
the fixed header: protocol name, version, flags, keep-alive, CONNECT
properties, client id — and then will properties/topic/payload, user name
and password all nested inside the `will_flag` branch, exactly as in the
source (the user/password `if`s are inside the `if (stat->connect.will_flag)`
block).  A null string passed to `pack_string` would crash in C; the model
writes the empty string, which is reachable only in states the claims do not
use. -/
def make_connect_body (c : ConnectState) : List Nat :=
  pack_string [0x4D, 0x51, 0x54, 0x54] ++
  pack_byte MQTT_PROTOCOL_VERSION ++
  pack_byte (make_connect_flags c) ++
  pack_word c.keep_alive ++
  pack_conn_props c ++
  pack_string (c.client_id.getD []) ++
  (if c.will_flag then
    pack_will_props c ++
    pack_string (c.will.topic.getD []) ++
    pack_binary c.will.payload ++
    (if c.un_flag then pack_string (c.user.getD []) else []) ++
    (if c.pw_flag then pack_string (c.passwd.getD []) else [])
  else [])

/-- `make_connect`, both passes: fixed header (type CONNECT, flags 0,
remaining length from the size pass) followed by the write-pass body. -/
def make_connect_bytes (c : ConnectState) : List Nat :=
  write_fixed_header .CONNECT 0 (make_connect_rsize c) ++ make_connect_body c

/-! ## Pending table (mqtt_client.c lines 1259-1319) -/

/-- One slot of `stat->pending`: `(packet_id, await_packet_type)`;
`packet_id == 0` marks the slot free. -/
structure PendingSlot where
  packet_id : Nat
  await_packet_type : PacketType
  deriving DecidableEq

/-- The identifier minted by `reserve_packet_slot_for_answer`:
`++stat->packet_id_count` on a `uint16_t` (hence mod 65536), corrected to 1
when the increment wrapped to 0 (`if (!packet_id) packet_id = 1`). -/
def mint_packet_id (cnt : Nat) : Nat :=
  if (cnt + 1) % 65536 = 0 then 1 else (cnt + 1) % 65536

/-- `reserve_packet_slot_for_answer` from mqtt_client.c: scan for the first
free slot, store the freshly minted id and the awaited type there, return
the id.  The counter itself keeps the raw incremented value — when it wraps
it stays 0 even though the slot receives 1.  When no slot is free the table
and counter are unchanged (`ERROR_OUT_OF_RESOURCE`, here `none`). -/
def reserve_packet_slot_for_answer (pending : List PendingSlot) (cnt : Nat)
    (await : PacketType) : List PendingSlot × Nat × Option Nat :=
  match pending with
  | [] => ([], cnt, none)
  | s :: rest =>
    if s.packet_id = 0 then
      (⟨mint_packet_id cnt, await⟩ :: rest, (cnt + 1) % 65536,
        some (mint_packet_id cnt))
    else
      let r := reserve_packet_slot_for_answer rest cnt await
      (s :: r.1, r.2.1, r.2.2)

/-- Scan loop of `reserve_packet_slot_for_request`. -/
def reserve_request_loop (pending : List PendingSlot) (packet_id : Nat)
    (request : PacketType) : List PendingSlot × Except MqttError Unit :=
  match pending with
  | [] => ([], .error .outOfResource)
  | s :: rest =>
    if s.packet_id = 0 then (⟨packet_id, request⟩ :: rest, .ok ())
    else
      let r := reserve_request_loop rest packet_id request
      (s :: r.1, r.2)

/-- `reserve_packet_slot_for_request` from mqtt_client.c: a zero packet id is
rejected up front; otherwise the first free slot stores the caller-supplied
id (no check against ids already live in the table). -/
def reserve_packet_slot_for_request (pending : List PendingSlot)
    (packet_id : Nat) (request : PacketType) :
    List PendingSlot × Except MqttError Unit :=
  if packet_id = 0 then (pending, .error .invalidPacketId)
  else reserve_request_loop pending packet_id request

/-- `free_packet_slot` from mqtt_client.c: zero the first slot holding the
id; `ERROR_INVALID_PACKET_ID` if none does. -/
def free_packet_slot (pending : List PendingSlot) (packet_id : Nat) :
    List PendingSlot × Except MqttError Unit :=
  match pending with
  | [] => ([], .error .invalidPacketId)
  | s :: rest =>
    if s.packet_id = packet_id then (⟨0, .UNKNOWN⟩ :: rest, .ok ())
    else
      let r := free_packet_slot rest packet_id
      (s :: r.1, r.2)

/-- `get_expected_packet_answer` from mqtt_client.c. -/
def get_expected_packet_answer (pending : List PendingSlot)
    (packet_id : Nat) : PacketType :=
  match pending with
  | [] => .UNKNOWN
  | s :: rest =>
    if s.packet_id = packet_id then s.await_packet_type
    else get_expected_packet_answer rest packet_id

/-- `await_for_packet` from mqtt_client.c. -/
def await_for_packet (pending : List PendingSlot) (t : PacketType) : Bool :=
  pending.any (fun s => s.await_packet_type = t)

/-- The in-place rewrite loop that appears inline in `process_pubrec` and
`mqtt_pubrel` (and as `advance` in the spec): set the awaited type of the
first slot holding the id; no-op when absent. -/
def advance_packet_slot (pending : List PendingSlot) (packet_id : Nat)
    (t : PacketType) : List PendingSlot :=
  match pending with
  | [] => []
  | s :: rest =>
    if s.packet_id = packet_id then ⟨s.packet_id, t⟩ :: rest
    else s :: advance_packet_slot rest packet_id t

/-- The packet ids of live (non-zero) entries, in table order. -/
def liveIds (l : List PendingSlot) : List Nat :=
  (l.map (fun s => s.packet_id)).filter (fun n => n != 0)

/-- One abstract pending-table operation, as enumerated by the claim. -/
inductive PendingOp where
  | reserveAnswer (await : PacketType)
  | reserveRequest (packet_id : Nat) (request : PacketType)
  | advance (packet_id : Nat) (await : PacketType)
  | release (packet_id : Nat)

/-- Apply one operation to (table, counter), discarding status results. -/
def apply_pending_op (st : List PendingSlot × Nat) (op : PendingOp) :
    List PendingSlot × Nat :=
  match op with
  | .reserveAnswer aw =>
    let r := reserve_packet_slot_for_answer st.1 st.2 aw
    (r.1, r.2.1)
  | .reserveRequest pid rq =>
    ((reserve_packet_slot_for_request st.1 pid rq).1, st.2)
  | .advance pid aw => (advance_packet_slot st.1 pid aw, st.2)
  | .release pid => ((free_packet_slot st.1 pid).1, st.2)

/-- A sequence of pending-table operations. -/
def run_pending_ops (st : List PendingSlot × Nat) (ops : List PendingOp) :
    List PendingSlot × Nat :=
  ops.foldl apply_pending_op st

/-- The zeroed table and counter of a fresh client (`calloc`). -/
def pending_init : List PendingSlot × Nat :=
  (List.replicate MQTT_RECEIVE_MAXIMUM ⟨0, .UNKNOWN⟩, 0)

/-! ## Session state and outbound operations
(mqtt_client.c lines 652-935, 1133-1142, 1188-1208, 2056-2131, 2294-2361,
2474-2504, 2671-2683, 2793-3002) -/

/-- The `puback`/`pubrec`/`pubrel`/`pubcomp` sub-structs of
`struct mqtt_client` (the fields the modelled operations read). -/
structure AckState where
  packet_id : Nat
  reason_code : Nat
  reason_string : Option (List Nat)
  user_properties : List UserProp

/-- The all-zero ack struct. -/
def AckState.zero : AckState := ⟨0, 0, none, []⟩

/-- The `subscribe` sub-struct fields feeding the SUBSCRIBE property
functions. -/
structure SubscribeProps where
  subscription_identifier : Nat
  user_properties : List UserProp

/-- The all-zero subscribe properties. -/
def SubscribeProps.zero : SubscribeProps := ⟨0, []⟩

/-- `struct mqtt_sub_entry`. -/
structure mqtt_sub_entry where
  qos : Nat
  no_local : Nat
  retain_as_published : Nat
  retain_handling : Nat
  topic : List Nat

/-- Modelled from the spec: `MQTT_REASON_SUCCESS` (0x00) of the missing
`mqtt_const.h`, spec section 6.1. -/
def MQTT_REASON_SUCCESS : Nat := 0

/-- Errors the transport adapters return from `alloc_send_buf` and `send`
(spec section 6.2); none of them coincides with a pre-flight error of
`mqtt_publish`. -/
inductive NetErr where
  | outOfMemory
  | hostUnavailable
  | swFailure
  deriving DecidableEq

/-- The engine surfaces transport errors verbatim (spec section 7). -/
def NetErr.toMqtt : NetErr → MqttError
  | .outOfMemory => .outOfMemory
  | .hostUnavailable => .hostUnavailable
  | .swFailure => .swFailure

/-- Outcome of the injected transport for one engine call: the result of
`alloc_send_buf` and of `send` (`none` = success).  The transport is an
injected capability (`stat->net`), so its results are oracle inputs of the
shallow embedding. -/
structure NetBehavior where
  alloc_send_buf : Option NetErr
  send : Option NetErr

/-- The always-succeeding transport. -/
def NetBehavior.ok : NetBehavior := ⟨none, none⟩

/-- The client state touched by the modelled operations: the pending table
and id counter, the expected-packet-type mask, the connection flag, the
server limits captured from CONNACK, and the outbound property structs.
Buffers and cursors (`pout`/`pin`/`outp`/`inp`) are represented by the byte
lists the operations produce and consume. -/
structure mqtt_client where
  pending : List PendingSlot
  packet_id_count : Nat
  expected_ptypes : Nat
  connected : Bool
  max_qos : Nat
  retain_avail : Bool
  wildcard_sub_avail : Bool
  shared_sub_avail : Bool
  publish : PublishProps
  pubrel : AckState
  subscribe_props : SubscribeProps

/-- `mqtt_create_client` from mqtt_client.c: `calloc` zeroes the state, then
`expected_ptypes = BIT(PINGREQ)`.  (The network-API assignment and broker
address copy have no bearing on the claims.) -/
def mqtt_create_client : mqtt_client :=
  ⟨List.replicate MQTT_RECEIVE_MAXIMUM ⟨0, .UNKNOWN⟩, 0,
    BIT PacketType.PINGREQ.val, false, 0, false, false, false,
    PublishProps.zero, AckState.zero, SubscribeProps.zero⟩

/-- `validate_pubrel_utf8_strings` from mqtt_client.c: reason string and
user properties must pass `is_valid_utf8` (which, see above, accepts
everything on this build). -/
def validate_pubrel_utf8_strings (a : AckState) : Except MqttError Unit :=
  if a.reason_string.isSome ∧ ¬ is_valid_utf8 (a.reason_string.getD []) then
    .error .invalidEncoding
  else if a.user_properties.any
      (fun up => !(is_valid_utf8 up.key) || !(is_valid_utf8 up.value)) then
    .error .invalidEncoding
  else .ok ()

/-- `estimate_pubrel_prop_size` from mqtt_client.c. -/
def estimate_pubrel_prop_size (a : AckState) : Nat :=
  (if a.reason_string.isSome then 1 + STRLEN a.reason_string else 0) +
  (a.user_properties.map
    (fun up => 1 + STRLEN (some up.key) + STRLEN (some up.value))).sum

/-- `pack_pubrel_props` from mqtt_client.c. -/
def pack_pubrel_props (a : AckState) : List Nat :=
  pack_variable_size (estimate_pubrel_prop_size a) ++
  (match a.reason_string with
   | none => []
   | some rs => pack_byte MQTT_PUBREL_REASON_STRING_ID ++ pack_string rs) ++
  (a.user_properties.flatMap
    (fun up => pack_byte MQTT_USER_PROPERTY_ID ++
      pack_string up.key ++ pack_string up.value))

/-- `make_pubrel` from mqtt_client.c, the remaining length: packet id,
reason code, then either the encoded properties or a single zero
property-length byte. -/
def make_pubrel_rsize (a : AckState) : Nat :=
  let prop_size := estimate_pubrel_prop_size a
  2 + 1 + (if prop_size > 0 then
    get_variable_size_byte_count prop_size + prop_size else 1)

/-- `make_pubrel` from mqtt_client.c, the bytes of the write pass: fixed
header (PUBREL, reserved flags 0b0010), packet id, reason code,
properties. -/
def make_pubrel_bytes (a : AckState) : List Nat :=
  write_fixed_header .PUBREL 0x02 (make_pubrel_rsize a) ++
    pack_word a.packet_id ++ pack_byte a.reason_code ++ pack_pubrel_props a

/-- `mqtt_pubrel` from mqtt_client.c: guard clauses (connected, nonzero id,
UTF-8), stamp the id and default the reason code, advance the pending slot
to PUBCOMP, two-pass build, alloc, send, free; on successful send
`expected_ptypes |= BIT(PUBCOMP)`.  Returns the new state, the status, and
the packets handed to the transport. -/
def mqtt_pubrel (c : mqtt_client) (packet_id : Nat) (net : NetBehavior) :
    mqtt_client × Except MqttError Unit × List (List Nat) :=
  if c.connected = false then (c, .error .notConnected, [])
  else if packet_id = 0 then (c, .error .invalidPacketId, [])
  else
    match validate_pubrel_utf8_strings c.pubrel with
    | .error e => (c, .error e, [])
    | .ok _ =>
      let a := { c.pubrel with
        packet_id := packet_id,
        reason_code := if c.pubrel.reason_code = 0 then MQTT_REASON_SUCCESS
          else c.pubrel.reason_code }
      let c1 := { c with
        pubrel := a,
        pending := advance_packet_slot c.pending packet_id .PUBCOMP }
      match net.alloc_send_buf with
      | some e => (c1, .error e.toMqtt, [])
      | none =>
        let bytes := make_pubrel_bytes a
        match net.send with
        | some e => (c1, .error e.toMqtt, [bytes])
        | none =>
          ({ c1 with expected_ptypes :=
              c1.expected_ptypes ||| BIT PacketType.PUBCOMP.val },
            .ok (), [bytes])

/-- `process_pubrec` from mqtt_client.c, for a short-form inbound PUBREC
(packet id only, no reason-code/properties tail, so `reason_code = 0`): the
id must match a pending slot awaiting PUBREC, the slot advances to PUBCOMP,
PUBREC leaves the expected mask if it was the last such awaiter, PUBCOMP
joins it, and a PUBREL is sent via `mqtt_pubrel`. -/
def process_pubrec (c : mqtt_client) (packet_id : Nat) (net : NetBehavior) :
    mqtt_client × Except MqttError Unit × List (List Nat) :=
  if get_expected_packet_answer c.pending packet_id ≠ .PUBREC then
    (c, .error .unexpectedPacketType, [])
  else
    let pend := advance_packet_slot c.pending packet_id .PUBCOMP
    let e1 := if await_for_packet pend .PUBREC = false then
        CLR16 c.expected_ptypes (BIT PacketType.PUBREC.val)
      else c.expected_ptypes
    let c1 := { c with
      pending := pend,
      expected_ptypes := e1 ||| BIT PacketType.PUBCOMP.val }
    mqtt_pubrel c1 packet_id net

/-- `process_pubcomp` from mqtt_client.c, for a short-form inbound PUBCOMP:
the id must match a pending slot awaiting PUBCOMP; the slot is released and
PUBCOMP leaves the expected mask if no other slot awaits it (then
`mqtt_publish_completed` fires, not modelled). -/
def process_pubcomp (c : mqtt_client) (packet_id : Nat) :
    mqtt_client × Except MqttError Unit :=
  if get_expected_packet_answer c.pending packet_id ≠ .PUBCOMP then
    (c, .error .unexpectedPacketType)
  else
    let pend := (free_packet_slot c.pending packet_id).1
    let e1 := if await_for_packet pend .PUBCOMP = false then
        CLR16 c.expected_ptypes (BIT PacketType.PUBCOMP.val)
      else c.expected_ptypes
    ({ c with pending := pend, expected_ptypes := e1 }, .ok ())

/-- A connected client whose pending table holds one slot awaiting PUBREC
for packet id 1 (the state after a QoS 2 PUBLISH was sent). -/
def c6_client : mqtt_client :=
  { mqtt_create_client with
      connected := true,
      pending := ⟨1, .PUBREC⟩ :: List.replicate 31 ⟨0, .UNKNOWN⟩,
      expected_ptypes := BIT PacketType.PINGREQ.val |||
        BIT PacketType.PUBREC.val }

/-! ## mqtt_publish, mqtt_subscribe, mqtt_ping, dispatch
(mqtt_client.c lines 2474-2504, 2793-2964, 2966-3002) -/

/-- `validate_publish_utf8_strings` from mqtt_client.c: topic (required),
content type, response topic and user properties must pass `is_valid_utf8`
(a null topic also yields InvalidEncoding in C; topics are always present
here). -/
def validate_publish_utf8_strings (p : PublishProps) (topic : List Nat) :
    Except MqttError Unit :=
  if ¬ is_valid_utf8 topic then .error .invalidEncoding
  else if p.content_type.isSome ∧
      ¬ is_valid_utf8 (p.content_type.getD []) then .error .invalidEncoding
  else if p.response_topic.isSome ∧
      ¬ is_valid_utf8 (p.response_topic.getD []) then .error .invalidEncoding
  else if p.user_properties.any
      (fun up => !(is_valid_utf8 up.key) || !(is_valid_utf8 up.value)) then
    .error .invalidEncoding
  else .ok ()

/-- The pre-flight checks of `mqtt_publish` in source order: connected,
UTF-8, `qos <= 2`, `qos <= max_qos`, retain availability, no `+`/`#`
wildcard bytes (the `strstr` calls search for the single bytes 0x2B and
0x23).  `none` means all checks passed. -/
def mqtt_publish_preflight (c : mqtt_client) (msg : mqtt_pub_packet) :
    Option MqttError :=
  if c.connected = false then some .notConnected
  else
    match validate_publish_utf8_strings c.publish msg.topic with
    | .error e => some e
    | .ok _ =>
      if msg.qos > 2 then some .invalidQoS
      else if msg.qos > c.max_qos then some .qosNotSupported
      else if msg.retain = true ∧ c.retain_avail = false then
        some .retainNotSupported
      else if msg.topic.contains 43 ∨ msg.topic.contains 35 then
        some .invalidTopic
      else none

/-- The tail of `mqtt_publish` after a packet id (if any) was stamped:
two-pass build, `alloc_send_buf`, write, `send`, free; on successful send
the expected mask gains PUBACK (qos 1) or PUBREC (qos 2). -/
def mqtt_publish_send (c : mqtt_client) (msg : mqtt_pub_packet)
    (net : NetBehavior) :
    mqtt_client × Except MqttError Unit × List (List Nat) :=
  match net.alloc_send_buf with
  | some e => (c, .error e.toMqtt, [])
  | none =>
    let bytes := make_publish_bytes c.publish msg
    match net.send with
    | some e => (c, .error e.toMqtt, [bytes])
    | none =>
      ({ c with expected_ptypes :=
          if msg.qos = 1 then c.expected_ptypes ||| BIT PacketType.PUBACK.val
          else if msg.qos = 2 then
            c.expected_ptypes ||| BIT PacketType.PUBREC.val
          else c.expected_ptypes },
        .ok (), [bytes])

/-- `mqtt_publish` from mqtt_client.c: pre-flight checks, then for `qos > 0`
a pending-slot reservation (`await` PUBREC for qos 2, PUBACK for qos 1)
whose failure returns OutOfResource — and whose success is NOT rolled back
by any later failure — then build/alloc/send. -/
def mqtt_publish (c : mqtt_client) (msg : mqtt_pub_packet)
    (net : NetBehavior) :
    mqtt_client × Except MqttError Unit × List (List Nat) :=
  match mqtt_publish_preflight c msg with
  | some e => (c, .error e, [])
  | none =>
    if msg.qos > 0 then
      let r := reserve_packet_slot_for_answer c.pending c.packet_id_count
        (if msg.qos = 2 then .PUBREC else .PUBACK)
      match r.2.2 with
      | none =>
        ({ c with pending := r.1, packet_id_count := r.2.1 },
          .error .outOfResource, [])
      | some pid =>
        mqtt_publish_send
          { c with pending := r.1, packet_id_count := r.2.1 }
          { msg with packet_id := pid } net
    else mqtt_publish_send c msg net

/-- `validate_subscribe_utf8_strings` from mqtt_client.c. -/
def validate_subscribe_utf8_strings (sp : SubscribeProps)
    (entries : List mqtt_sub_entry) : Except MqttError Unit :=
  if entries.any (fun en => !(is_valid_utf8 en.topic)) then
    .error .invalidEncoding
  else if sp.user_properties.any
      (fun up => !(is_valid_utf8 up.key) || !(is_valid_utf8 up.value)) then
    .error .invalidEncoding
  else .ok ()

/-- The per-entry validation loop of `mqtt_subscribe`: qos range, server
max qos, wildcard support (bytes `+`/`#`), shared-subscription support
(prefix `$share/`), retain-handling range. -/
def validate_sub_entries (c : mqtt_client) :
    List mqtt_sub_entry → Except MqttError Unit
  | [] => .ok ()
  | en :: rest =>
    if en.qos > 2 then .error .invalidQoS
    else if en.qos > c.max_qos then .error .qosNotSupported
    else if (en.topic.contains 43 ∨ en.topic.contains 35) ∧
        c.wildcard_sub_avail = false then .error .unsupported
    else if en.topic.take 7 = [0x24, 0x73, 0x68, 0x61, 0x72, 0x65, 0x2F] ∧
        c.shared_sub_avail = false then .error .unsupported
    else if en.retain_handling > 2 then .error .unsupported
    else validate_sub_entries c rest

/-- Modelled from the spec: the SUBSCRIBE subscription-identifier property
id (0x0B), spec section 6.1. -/
def MQTT_SUB_SUBSCRIPTION_IDENTIFIER_ID : Nat := 0x0B

/-- `estimate_subscribe_prop_size` from mqtt_client.c. -/
def estimate_subscribe_prop_size (sp : SubscribeProps) : Nat :=
  (if sp.subscription_identifier ≠ 0 then
    1 + get_variable_size_byte_count sp.subscription_identifier else 0) +
  (sp.user_properties.map
    (fun up => 1 + STRLEN (some up.key) + STRLEN (some up.value))).sum

/-- `pack_subscribe_props` from mqtt_client.c. -/
def pack_subscribe_props (sp : SubscribeProps) : List Nat :=
  pack_variable_size (estimate_subscribe_prop_size sp) ++
  (if sp.subscription_identifier ≠ 0 then
    pack_byte MQTT_SUB_SUBSCRIPTION_IDENTIFIER_ID ++
      pack_variable_size sp.subscription_identifier else []) ++
  (sp.user_properties.flatMap
    (fun up => pack_byte MQTT_USER_PROPERTY_ID ++
      pack_string up.key ++ pack_string up.value))

/-- The subscription-options byte packed by `make_subscribe`. -/
def sub_options_byte (en : mqtt_sub_entry) : Nat :=
  (en.qos &&& 0x03) |||
  (if en.no_local ≠ 0 then 0x04 else 0) |||
  (if en.retain_as_published ≠ 0 then 0x08 else 0) |||
  ((en.retain_handling &&& 0x03) <<< 4)

/-- `make_subscribe` from mqtt_client.c, the remaining length. -/
def make_subscribe_rsize (sp : SubscribeProps)
    (entries : List mqtt_sub_entry) : Nat :=
  let prop_size := estimate_subscribe_prop_size sp
  2 + get_variable_size_byte_count prop_size + prop_size +
    (entries.map (fun en => STRLEN (some en.topic) + 1)).sum

/-- `make_subscribe` from mqtt_client.c, the bytes of the write pass. -/
def make_subscribe_bytes (sp : SubscribeProps)
    (entries : List mqtt_sub_entry) (packet_id : Nat) : List Nat :=
  write_fixed_header .SUBSCRIBE 0x02 (make_subscribe_rsize sp entries) ++
    pack_word packet_id ++ pack_subscribe_props sp ++
    entries.flatMap
      (fun en => pack_string en.topic ++ pack_byte (sub_options_byte en))

/-- `mqtt_subscribe` from mqtt_client.c: null/empty and connected guards,
then — BEFORE any validation — a pending-slot reservation awaiting SUBACK;
then UTF-8 validation, per-entry validation, build, alloc, send; on
successful send the expected mask gains SUBACK.  A validation or transport
failure returns without releasing the reserved slot. -/
def mqtt_subscribe (c : mqtt_client) (entries : List mqtt_sub_entry)
    (net : NetBehavior) :
    mqtt_client × Except MqttError Unit × List (List Nat) :=
  if entries.isEmpty then (c, .error .nullReference, [])
  else if c.connected = false then (c, .error .notConnected, [])
  else
    let r := reserve_packet_slot_for_answer c.pending c.packet_id_count
      .SUBACK
    match r.2.2 with
    | none =>
      ({ c with pending := r.1, packet_id_count := r.2.1 },
        .error .outOfResource, [])
    | some pid =>
      let c1 := { c with pending := r.1, packet_id_count := r.2.1 }
      match validate_subscribe_utf8_strings c.subscribe_props entries with
      | .error e => (c1, .error e, [])
      | .ok _ =>
        match validate_sub_entries c1 entries with
        | .error e => (c1, .error e, [])
        | .ok _ =>
          match net.alloc_send_buf with
          | some e => (c1, .error e.toMqtt, [])
          | none =>
            let bytes := make_subscribe_bytes c1.subscribe_props entries pid
            match net.send with
            | some e => (c1, .error e.toMqtt, [bytes])
            | none =>
              ({ c1 with expected_ptypes :=
                  c1.expected_ptypes ||| BIT PacketType.SUBACK.val },
                .ok (), [bytes])

/-- `make_pingreq` from mqtt_client.c: fixed header only, remaining length
0. -/
def make_pingreq_bytes : List Nat := write_fixed_header .PINGREQ 0 0

/-- `mqtt_ping` from mqtt_client.c: connected guard, two-pass build, alloc,
send, free; on successful send the expected mask gains PINGRESP. -/
def mqtt_ping (c : mqtt_client) (net : NetBehavior) :
    mqtt_client × Except MqttError Unit × List (List Nat) :=
  if c.connected = false then (c, .error .notConnected, [])
  else
    match net.alloc_send_buf with
    | some e => (c, .error e.toMqtt, [])
    | none =>
      match net.send with
      | some e => (c, .error e.toMqtt, [make_pingreq_bytes])
      | none =>
        ({ c with expected_ptypes :=
            c.expected_ptypes ||| BIT PacketType.PINGRESP.val },
          .ok (), [make_pingreq_bytes])

/-- `process_packet` from mqtt_client.c (the per-type dispatch reached after
the checks of `mqtt_process_packet`), restricted to the arms the claims
exercise: PUBREC and PUBCOMP run the handlers modelled above on the packet
id decoded from the buffer, PINGREQ calls `mqtt_ping`, PINGRESP only fires
the `mqtt_ping_received` callback and returns OK.  The remaining arms
(CONNACK, PUBLISH, PUBACK, PUBREL, SUBACK, UNSUBACK, DISCONNECT) invoke
decoders outside the scope of the claims; they and the source's `default:
return OK` are collapsed into the catch-all arm here. -/
def process_packet (c : mqtt_client) (ptype : PacketType) (packet_id : Nat)
    (net : NetBehavior) :
    mqtt_client × Except MqttError Unit × List (List Nat) :=
  match ptype with
  | .PUBREC => process_pubrec c packet_id net
  | .PUBCOMP =>
    let r := process_pubcomp c packet_id
    (r.1, r.2, [])
  | .PINGREQ => mqtt_ping c net
  | .PINGRESP => (c, .ok (), [])
  | _ => (c, .ok (), [])

/-- A signed 8-bit reinterpretation never exceeds 127. -/
theorem signedChar_le (b : Nat) : signedChar b ≤ 0x7F := by
  unfold signedChar
  split
  · omega
  · have : (b : Nat) % 256 < 256 := Nat.mod_lt _ (by omega)
    omega

/-- Helper: the signed-char loop body accepts everything, whatever the
fuel. -/
theorem is_valid_utf8_go_true (fuel : Nat) (l : List Nat) :
    is_valid_utf8_go fuel l = true := by
  induction fuel generalizing l with
  | zero => cases l <;> rfl
  | succ fuel ih =>
    cases l with
    | nil => rfl
    | cons b rest =>
      unfold is_valid_utf8_go
      rw [if_pos (signedChar_le b)]
      exact ih rest

/-- Helper: on the signed-char target the validator accepts every byte
string, because the ASCII fast path `str[i] <= 0x7F` is taken for every
byte. -/
theorem is_valid_utf8_true (l : List Nat) : is_valid_utf8 l = true :=
  is_valid_utf8_go_true l.length l

/-- The encoded-length half of spec property 2 does hold: for every `n` up to
2^28 - 1 the encoding produced by `pack_variable_size` occupies exactly
`get_variable_size_byte_count n` bytes (1 / 2 / 3 / 4 at the documented
thresholds). -/
theorem pack_variable_size_length_eq (n : Nat) (h : n < 2 ^ 28) :
    (pack_variable_size n).length = get_variable_size_byte_count n := by
  suffices H : ∀ fuel size, size ≤ fuel → size < 2 ^ 28 →
      (pack_variable_size_go fuel size).length =
        get_variable_size_byte_count size from H n n le_rfl h
  intro fuel
  induction fuel with
  | zero =>
    intro size h1 _
    have : size = 0 := by omega
    subst this; rfl
  | succ fuel ih =>
    intro size h1 h2
    show (if size / 128 > 0 then
        (size % 128 ||| 0x80) :: pack_variable_size_go fuel (size / 128)
      else [size % 128]).length = _
    by_cases hd : size / 128 > 0
    · simp only [hd, if_true, List.length_cons]
      rw [ih (size / 128) (by omega) (by omega)]
      unfold get_variable_size_byte_count
      split_ifs <;> omega
    · simp only [hd, if_false]
      unfold get_variable_size_byte_count
      split_ifs <;> simp <;> omega

/-- Claim C1: the claim asserts that decoding the variable-length-integer
encoding of every `n` in `[0, 2^28 - 1]` yields `n` again.  It fails already
at `n = 128`: `pack_variable_size` correctly emits the two bytes `80 01`,
but `unpack_variable_size` re-declares `encoded_byte` inside its do-while
body, so the loop condition reads the outer variable (which stays 0), the
loop stops after one byte and the decoder returns `0x80 & 0x7F = 0`.  (The
encoded-length half of the claim does hold, see
`pack_variable_size_length_eq`.) -/
theorem c1_varint_roundtrip_fails_at_128 :
    pack_variable_size 128 = [0x80, 0x01] ∧
    unpack_variable_size (pack_variable_size 128) = 0 ∧
    (pack_variable_size 128).length = get_variable_size_byte_count 128 := by
  decide

/-- Claim C2: the claim asserts that `is_valid_utf8` accepts exactly the
RFC 3629 sequences and that a PUBLISH topic `ED A0 80` (an encoded
surrogate) is rejected with InvalidEncoding.  On the library's default
desktop build plain `char` is signed, so the ASCII test `str[i] <= 0x7F`
accepts every byte and the validator returns true for every byte string —
in particular for the surrogate `ED A0 80`, which `process_publish` then
accepts instead of returning InvalidEncoding.  The unsigned-char variant of
the same code (`is_valid_utf8_uchar`, the behaviour the file's comments
describe) does reject it. -/
theorem c2_is_valid_utf8_accepts_everything :
    (∀ l : List Nat, is_valid_utf8 l = true) ∧
    is_valid_utf8 [0xED, 0xA0, 0x80] = true ∧
    is_valid_utf8_uchar [0xED, 0xA0, 0x80] = false :=
  ⟨is_valid_utf8_true, is_valid_utf8_true _, by decide⟩

/-- Helper: `x & 0x7F` is `x % 128`. -/
theorem and_127_eq_mod (m : Nat) : m &&& 127 = m % 128 := by
  have h := Nat.and_pow_two_sub_one_eq_mod m 7
  norm_num at h
  exact h

set_option maxRecDepth 4000 in
/-- Claim C5, counterexample: a well-formed 131-byte packet whose declared
remaining length is 128 (varint `80 01`), with its type bit present in the
expected mask, is rejected with InvalidPacketSize although the total length
equals `1 + varint_length_bytes + remaining_length`; the claim says such a
packet is dispatched.  (Root cause: `unpack_variable_size` only reads one
byte, yielding 0 instead of 128.) -/
theorem c5_large_packet_rejected :
    (0x30 :: (pack_variable_size 128 ++ List.replicate 128 0)).length =
      1 + (pack_variable_size 128).length + 128 ∧
    TST (BIT 3) (BIT (0x30 >>> 4)) = true ∧
    mqtt_process_packet (0x30 :: (pack_variable_size 128 ++ List.replicate 128 0))
      (BIT 3) = .invalidPacketSize := by
  refine ⟨?_, by decide, ?_⟩ <;> decide

/-- Claim C5, amended: for buffers of at least two bytes whose declared
remaining length fits one varint byte (value at most 127 — beyond that the
decoder bug makes the check misfire),
`mqtt_process_packet` returns InvalidPacketSize exactly when the buffer
length differs from `1 + 1 + remaining_length`; when the length matches it
returns UnexpectedPacketType exactly when the type nibble's bit is absent
from `expected_ptypes`, and otherwise dispatches the type and flag
nibbles. -/
theorem c5_size_and_type_checks (buf : List Nat) (expected : Nat)
    (hlen : 2 ≤ buf.length)
    (hr : (buf.drop 1).headD 0 % 256 < 128) :
    (mqtt_process_packet buf expected = .invalidPacketSize ↔
      buf.length ≠ 1 + 1 + (buf.drop 1).headD 0 % 256) ∧
    (buf.length = 1 + 1 + (buf.drop 1).headD 0 % 256 →
      (mqtt_process_packet buf expected = .unexpectedPacketType ↔
        TST expected (BIT ((buf.headD 0 % 256) >>> 4)) = false) ∧
      (TST expected (BIT ((buf.headD 0 % 256) >>> 4)) = true →
        mqtt_process_packet buf expected =
          .dispatched ((buf.headD 0 % 256) >>> 4) (buf.headD 0 % 256 &&& 0x0F))) := by
  have hu : unpack_variable_size (buf.drop 1) =
      (buf.drop 1).headD 0 % 256 := by
    unfold unpack_variable_size
    rw [and_127_eq_mod]
    omega
  have hc : get_variable_size_byte_count ((buf.drop 1).headD 0 % 256) = 1 := by
    unfold get_variable_size_byte_count
    rw [if_pos (by omega)]
  unfold mqtt_process_packet
  dsimp only
  rw [hu, hc]
  constructor
  · constructor
    · intro h hcontra
      rw [if_pos (by omega)] at h
      split at h <;> simp_all
    · intro hne
      rw [if_neg (by omega)]
  · intro heq
    rw [if_pos (by omega)]
    constructor
    · cases htst : TST expected (BIT ((buf.headD 0 % 256) >>> 4)) <;>
        simp [htst]
    · intro htst
      rw [if_pos htst]

/-- Witness for the amended C5 theorem: the spec's S5 scenario — a fixed
header declaring remaining length 20 over an 18-byte buffer — yields
InvalidPacketSize. -/
theorem c5_size_and_type_checks_witness :
    mqtt_process_packet (0x30 :: 20 :: List.replicate 16 0) (BIT 3) =
      .invalidPacketSize :=
  (c5_size_and_type_checks (0x30 :: 20 :: List.replicate 16 0) (BIT 3)
    (by decide) (by decide)).1.mpr (by decide)

/-- Claim C7, counterexample: the byte string the claim demands
(`30 0A 00 03 61 2F 62 00 68 69`, remaining length 0x0A = 10) is not what
the builder produces for `publish("a/b", "hi", qos=0, retain=false)`: the
remaining length of that packet is 8 (2+3 topic, 1 property length, 2
payload), so the second byte is 0x08, not 0x0A.  (The spec's own example is
internally inconsistent: it lists only 8 bytes after the length field it
declares as 10.) -/
theorem c7_s1_bytes_differ :
    make_publish_bytes PublishProps.zero
      ⟨[0x61, 0x2F, 0x62], ⟨some [0x68, 0x69], 2⟩, 0, false, false, 0⟩ ≠
      [0x30, 0x0A, 0x00, 0x03, 0x61, 0x2F, 0x62, 0x00, 0x68, 0x69] := by
  decide

/-- Claim C7, amended: after CONNECT/CONNACK (all-zero publish properties),
`publish("a/b", "hi", qos=0, retain=false)` produces exactly the bytes
`30 08 00 03 61 2F 62 00 68 69` — fixed header 0x30, remaining length 8,
topic length 3, "a/b", property-length 0, payload "hi". -/
theorem c7_s1_bytes :
    make_publish_bytes PublishProps.zero
      ⟨[0x61, 0x2F, 0x62], ⟨some [0x68, 0x69], 2⟩, 0, false, false, 0⟩ =
      [0x30, 0x08, 0x00, 0x03, 0x61, 0x2F, 0x62, 0x00, 0x68, 0x69] := by
  decide

/-- Claim C3: the two passes of `make_connect` must agree to the byte.  They
do not: (1) with a user name set and no will, the size pass counts
`STRLEN(user)` = 3 bytes that the write pass never writes, because the
user/password packing is nested inside the `will_flag` branch — remaining
length 17 against 14 written bytes; (2) the CONNECT property packer writes
2 bytes more than the estimator counts when auth data is set (the binary
length prefix is not estimated); (3) the estimator counts user properties
that the packer never writes. -/
theorem c3_connect_two_pass_mismatch :
    (make_connect_rsize
        { ConnectState.zero with
            un_flag := true, user := some [0x75], client_id := some [0x63] } = 17 ∧
      (make_connect_body
        { ConnectState.zero with
            un_flag := true, user := some [0x75], client_id := some [0x63] }).length = 14) ∧
    (pack_conn_props
        { ConnectState.zero with auth_data := ⟨some [1, 2, 3], 3⟩ }).length =
      1 + estimate_conn_prop_size
        { ConnectState.zero with auth_data := ⟨some [1, 2, 3], 3⟩ } + 2 ∧
    (estimate_conn_prop_size
        { ConnectState.zero with user_properties := [⟨[0x6B], [0x76]⟩] } = 7 ∧
      (pack_conn_props
        { ConnectState.zero with user_properties := [⟨[0x6B], [0x76]⟩] }).length = 1) := by
  refine ⟨⟨?_, ?_⟩, ?_, ?_, ?_⟩ <;> decide

/-- Claim C4, counterexample: two operations from the initial state — an
outbound reservation (which mints packet id 1) followed by an inbound
reservation for the same id 1 — leave the table with two live entries
carrying packet_id 1, because `reserve_packet_slot_for_request` never checks
the id against entries already live.  The claim asserts no such sequence
exists. -/
theorem c4_duplicate_live_packet_id :
    liveIds (run_pending_ops pending_init
      [.reserveAnswer .PUBACK, .reserveRequest 1 .PUBREL]).1 = [1, 1] ∧
    ¬ (liveIds (run_pending_ops pending_init
      [.reserveAnswer .PUBACK, .reserveRequest 1 .PUBREL]).1).Nodup := by
  constructor <;> decide

/-- Unfolding `liveIds` over one slot. -/
theorem liveIds_cons (s : PendingSlot) (l : List PendingSlot) :
    liveIds (s :: l) =
      if s.packet_id = 0 then liveIds l else s.packet_id :: liveIds l := by
  by_cases h : s.packet_id = 0 <;> simp [liveIds, h]

/-- The minted id is never 0: a wrap of the 16-bit counter is corrected
to 1. -/
theorem mint_packet_id_ne_zero (cnt : Nat) : mint_packet_id cnt ≠ 0 := by
  unfold mint_packet_id
  split <;> omega

/-- A successful outbound reservation returns exactly the minted id. -/
theorem reserve_answer_pid (l : List PendingSlot) (cnt : Nat)
    (aw : PacketType) (pid : Nat)
    (h : (reserve_packet_slot_for_answer l cnt aw).2.2 = some pid) :
    pid = mint_packet_id cnt := by
  induction l with
  | nil => simp [reserve_packet_slot_for_answer] at h
  | cons s rest ih =>
    by_cases hs : s.packet_id = 0
    · simp [reserve_packet_slot_for_answer, hs] at h
      omega
    · simp [reserve_packet_slot_for_answer, hs] at h
      exact ih h

/-- Every live id after an outbound reservation is the minted id or was live
before. -/
theorem liveIds_reserve_answer_subset (l : List PendingSlot) (cnt : Nat)
    (aw : PacketType) (x : Nat)
    (h : x ∈ liveIds (reserve_packet_slot_for_answer l cnt aw).1) :
    x = mint_packet_id cnt ∨ x ∈ liveIds l := by
  induction l with
  | nil => simp [reserve_packet_slot_for_answer, liveIds] at h
  | cons s rest ih =>
    by_cases hs : s.packet_id = 0
    · simp only [reserve_packet_slot_for_answer, hs, if_pos] at h
      rw [liveIds_cons] at h
      rw [if_neg (mint_packet_id_ne_zero cnt)] at h
      rw [liveIds_cons, if_pos hs]
      simpa using h
    · simp only [reserve_packet_slot_for_answer, hs, if_neg,
        not_false_iff] at h
      rw [liveIds_cons, if_neg hs] at h ⊢
      rcases List.mem_cons.mp h with h1 | h1
      · right; exact List.mem_cons.mpr (Or.inl h1)
      · rcases ih h1 with h2 | h2
        · exact Or.inl h2
        · exact Or.inr (List.mem_cons.mpr (Or.inr h2))

/-- Distinctness of live ids is preserved by an outbound reservation whose
minted id is fresh. -/
theorem nodup_liveIds_reserve_answer (l : List PendingSlot) (cnt : Nat)
    (aw : PacketType) (hnd : (liveIds l).Nodup)
    (hfresh : mint_packet_id cnt ∉ liveIds l) :
    (liveIds (reserve_packet_slot_for_answer l cnt aw).1).Nodup := by
  induction l with
  | nil => simp [reserve_packet_slot_for_answer, liveIds]
  | cons s rest ih =>
    by_cases hs : s.packet_id = 0
    · simp only [reserve_packet_slot_for_answer, hs, if_pos]
      rw [liveIds_cons, if_neg (mint_packet_id_ne_zero cnt)]
      rw [liveIds_cons, if_pos hs] at hnd hfresh
      exact List.Nodup.cons hfresh hnd
    · simp only [reserve_packet_slot_for_answer, hs, if_neg, not_false_iff]
      rw [liveIds_cons, if_neg hs] at hnd hfresh ⊢
      have hnd' := List.Nodup.of_cons hnd
      have hmem : s.packet_id ∉ liveIds rest :=
        (List.nodup_cons.mp hnd).1
      have hne : mint_packet_id cnt ≠ s.packet_id :=
        fun he => hfresh (he ▸ List.mem_cons_self _ _)
      have hfresh' : mint_packet_id cnt ∉ liveIds rest :=
        fun he => hfresh (List.mem_cons.mpr (Or.inr he))
      refine List.Nodup.cons ?_ (ih hnd' hfresh')
      intro hin
      rcases liveIds_reserve_answer_subset rest cnt aw _ hin with h1 | h1
      · exact hne h1.symm
      · exact hmem h1

/-- Every live id after an inbound reservation is the supplied id or was
live before. -/
theorem liveIds_reserve_request_subset (l : List PendingSlot) (pid : Nat)
    (rq : PacketType) (x : Nat)
    (h : x ∈ liveIds (reserve_request_loop l pid rq).1) :
    x = pid ∨ x ∈ liveIds l := by
  induction l with
  | nil => simp [reserve_request_loop, liveIds] at h
  | cons s rest ih =>
    by_cases hs : s.packet_id = 0
    · simp only [reserve_request_loop, hs, if_pos] at h
      rw [liveIds_cons] at h
      rw [liveIds_cons, if_pos hs]
      by_cases hp : pid = 0
      · simp only [hp, if_pos] at h
        exact Or.inr h
      · simp only [hp, if_neg, not_false_iff] at h
        simpa using h
    · simp only [reserve_request_loop, hs, if_neg, not_false_iff] at h
      rw [liveIds_cons, if_neg hs] at h ⊢
      rcases List.mem_cons.mp h with h1 | h1
      · exact Or.inr (List.mem_cons.mpr (Or.inl h1))
      · rcases ih h1 with h2 | h2
        · exact Or.inl h2
        · exact Or.inr (List.mem_cons.mpr (Or.inr h2))

/-- Distinctness of live ids is preserved by an inbound reservation whose id
is not already live. -/
theorem nodup_liveIds_reserve_request (l : List PendingSlot) (pid : Nat)
    (rq : PacketType) (hnd : (liveIds l).Nodup)
    (hfresh : pid ∉ liveIds l) :
    (liveIds (reserve_request_loop l pid rq).1).Nodup := by
  induction l with
  | nil => simp [reserve_request_loop, liveIds]
  | cons s rest ih =>
    by_cases hs : s.packet_id = 0
    · simp only [reserve_request_loop, hs, if_pos]
      rw [liveIds_cons]
      rw [liveIds_cons, if_pos hs] at hnd hfresh
      by_cases hp : pid = 0
      · simp only [hp, if_pos]
        exact hnd
      · simp only [hp, if_neg, not_false_iff]
        exact List.Nodup.cons hfresh hnd
    · simp only [reserve_request_loop, hs, if_neg, not_false_iff]
      rw [liveIds_cons, if_neg hs] at hnd hfresh ⊢
      have hnd' := List.Nodup.of_cons hnd
      have hmem : s.packet_id ∉ liveIds rest := (List.nodup_cons.mp hnd).1
      have hne : pid ≠ s.packet_id :=
        fun he => hfresh (he ▸ List.mem_cons_self _ _)
      have hfresh' : pid ∉ liveIds rest :=
        fun he => hfresh (List.mem_cons.mpr (Or.inr he))
      refine List.Nodup.cons ?_ (ih hnd' hfresh')
      intro hin
      rcases liveIds_reserve_request_subset rest pid rq _ hin with h1 | h1
      · exact hne h1.symm
      · exact hmem h1

/-- `advance` rewrites only the awaited type, never a packet id. -/
theorem liveIds_advance (l : List PendingSlot) (pid : Nat) (t : PacketType) :
    liveIds (advance_packet_slot l pid t) = liveIds l := by
  induction l with
  | nil => rfl
  | cons s rest ih =>
    by_cases hs : s.packet_id = pid
    · simp only [advance_packet_slot, hs, if_pos]
      rw [liveIds_cons, liveIds_cons]
      simp [hs]
    · simp only [advance_packet_slot, hs, if_neg, not_false_iff]
      rw [liveIds_cons, liveIds_cons, ih]

/-- Every live id after a release was live before. -/
theorem liveIds_free_subset (l : List PendingSlot) (pid : Nat) (x : Nat)
    (h : x ∈ liveIds (free_packet_slot l pid).1) : x ∈ liveIds l := by
  induction l with
  | nil => simp [free_packet_slot, liveIds] at h
  | cons s rest ih =>
    by_cases hs : s.packet_id = pid
    · simp only [free_packet_slot, hs, if_pos] at h
      rw [liveIds_cons, if_pos rfl] at h
      rw [liveIds_cons]
      split
      · exact h
      · exact List.mem_cons.mpr (Or.inr h)
    · simp only [free_packet_slot, hs, if_neg, not_false_iff] at h
      rw [liveIds_cons] at h ⊢
      by_cases hz : s.packet_id = 0
      · rw [if_pos hz] at h ⊢
        exact ih h
      · rw [if_neg hz] at h ⊢
        rcases List.mem_cons.mp h with h1 | h1
        · exact List.mem_cons.mpr (Or.inl h1)
        · exact List.mem_cons.mpr (Or.inr (ih h1))

/-- Distinctness of live ids is preserved by a release. -/
theorem nodup_liveIds_free (l : List PendingSlot) (pid : Nat)
    (hnd : (liveIds l).Nodup) :
    (liveIds (free_packet_slot l pid).1).Nodup := by
  induction l with
  | nil => simp [free_packet_slot, liveIds]
  | cons s rest ih =>
    by_cases hs : s.packet_id = pid
    · simp only [free_packet_slot, hs, if_pos]
      rw [liveIds_cons, if_pos rfl]
      rw [liveIds_cons] at hnd
      split at hnd
      · exact hnd
      · exact List.Nodup.of_cons hnd
    · simp only [free_packet_slot, hs, if_neg, not_false_iff]
      rw [liveIds_cons] at hnd ⊢
      by_cases hz : s.packet_id = 0
      · rw [if_pos hz] at hnd ⊢
        exact ih hnd
      · rw [if_neg hz] at hnd ⊢
        have hmem := (List.nodup_cons.mp hnd).1
        refine List.Nodup.cons ?_ (ih (List.Nodup.of_cons hnd))
        intro hin
        exact hmem (liveIds_free_subset rest pid _ hin)

/-- Claim C4, amended: what the pending table does guarantee.  Outbound
reservations never mint id 0 (a counter wrap from 65535 yields id 1) and
inbound reservations reject packet id 0, so no operation writes a zero id
into a slot; and each of the four operations preserves distinctness of the
live packet ids provided any newly stored id (minted or caller-supplied) is
not already live.  The unconditional claim — no duplicate live ids after an
arbitrary operation sequence — is false because `reserve_packet_slot_for_request`
performs no such freshness check (and after 65536 mints the wrapped counter
can also re-issue a still-live id). -/
theorem c4_pending_table_zero_free_and_conditional_distinctness :
    (∀ (l : List PendingSlot) (cnt : Nat) (aw : PacketType) (pid : Nat),
      (reserve_packet_slot_for_answer l cnt aw).2.2 = some pid →
        pid ≠ 0 ∧ (cnt % 65536 = 65535 → pid = 1)) ∧
    (∀ (l : List PendingSlot) (rq : PacketType),
      reserve_packet_slot_for_request l 0 rq = (l, .error .invalidPacketId)) ∧
    (∀ (l : List PendingSlot) (cnt : Nat) (aw : PacketType),
      (liveIds l).Nodup → mint_packet_id cnt ∉ liveIds l →
        (liveIds (reserve_packet_slot_for_answer l cnt aw).1).Nodup) ∧
    (∀ (l : List PendingSlot) (pid : Nat) (rq : PacketType),
      (liveIds l).Nodup → pid ∉ liveIds l →
        (liveIds (reserve_packet_slot_for_request l pid rq).1).Nodup) ∧
    (∀ (l : List PendingSlot) (pid : Nat) (t : PacketType),
      liveIds (advance_packet_slot l pid t) = liveIds l) ∧
    (∀ (l : List PendingSlot) (pid : Nat),
      (liveIds l).Nodup → (liveIds (free_packet_slot l pid).1).Nodup) := by
  refine ⟨?_, ?_, ?_, ?_, liveIds_advance, nodup_liveIds_free⟩
  · intro l cnt aw pid h
    have hm := reserve_answer_pid l cnt aw pid h
    subst hm
    refine ⟨mint_packet_id_ne_zero cnt, fun hw => ?_⟩
    unfold mint_packet_id
    rw [if_pos (by omega)]
  · intro l rq
    simp [reserve_packet_slot_for_request]
  · exact nodup_liveIds_reserve_answer
  · intro l pid rq hnd hfresh
    unfold reserve_packet_slot_for_request
    split
    · exact hnd
    · exact nodup_liveIds_reserve_request l pid rq hnd hfresh

/-- Witness for the amended C4 theorem at concrete inputs: a reservation at
counter 65535 mints id 1 (never 0); id 0 is rejected for inbound
reservations; a fresh outbound reservation next to a live entry keeps the
live ids distinct; releasing keeps them distinct. -/
theorem c4_pending_table_witness :
    ((1 : Nat) ≠ 0 ∧ (65535 % 65536 = 65535 → (1 : Nat) = 1)) ∧
    reserve_packet_slot_for_request [⟨0, .UNKNOWN⟩] 0 .PUBREL =
      ([⟨0, .UNKNOWN⟩], .error .invalidPacketId) ∧
    (liveIds (reserve_packet_slot_for_answer
      [⟨5, .PUBACK⟩, ⟨0, .UNKNOWN⟩] 10 .PUBREC).1).Nodup ∧
    (liveIds (free_packet_slot [⟨5, .PUBACK⟩, ⟨7, .PUBREC⟩] 5).1).Nodup :=
  ⟨c4_pending_table_zero_free_and_conditional_distinctness.1
      [⟨0, .UNKNOWN⟩] 65535 .PUBACK 1 (by decide),
    c4_pending_table_zero_free_and_conditional_distinctness.2.1
      [⟨0, .UNKNOWN⟩] .PUBREL,
    c4_pending_table_zero_free_and_conditional_distinctness.2.2.1
      [⟨5, .PUBACK⟩, ⟨0, .UNKNOWN⟩] 10 .PUBREC (by decide) (by decide),
    c4_pending_table_zero_free_and_conditional_distinctness.2.2.2.2.2
      [⟨5, .PUBACK⟩, ⟨7, .PUBREC⟩] 5 (by decide)⟩

/-- The UTF-8 guard of `mqtt_pubrel` always passes (the validator accepts
every byte string on this build). -/
theorem validate_pubrel_ok (a : AckState) :
    validate_pubrel_utf8_strings a = .ok () := by
  simp [validate_pubrel_utf8_strings, is_valid_utf8_true]

/-- A table whose lookup of `pid` is not UNKNOWN holds a slot with that
id. -/
theorem any_of_get_expected_ne (l : List PendingSlot) (pid : Nat)
    (h : get_expected_packet_answer l pid ≠ .UNKNOWN) :
    l.any (fun s => s.packet_id == pid) = true := by
  induction l with
  | nil => simp [get_expected_packet_answer] at h
  | cons s rest ih =>
    by_cases hs : s.packet_id = pid
    · simp [hs]
    · simp only [get_expected_packet_answer, hs, if_neg,
        not_false_iff] at h
      simp [hs, ih h]

/-- Lookup after `advance`: the first slot holding the id now reports the
new awaited type; absent ids still report UNKNOWN. -/
theorem get_expected_advance (l : List PendingSlot) (pid : Nat)
    (t : PacketType) :
    get_expected_packet_answer (advance_packet_slot l pid t) pid =
      if l.any (fun s => s.packet_id == pid) = true then t
      else .UNKNOWN := by
  induction l with
  | nil => simp [advance_packet_slot, get_expected_packet_answer]
  | cons s rest ih =>
    by_cases hs : s.packet_id = pid
    · simp [advance_packet_slot, hs, get_expected_packet_answer]
    · simp [advance_packet_slot, hs, get_expected_packet_answer, ih]

/-- `advance` never changes the stored packet ids. -/
theorem advance_map_id (l : List PendingSlot) (pid : Nat) (t : PacketType) :
    (advance_packet_slot l pid t).map (fun s => s.packet_id) =
      l.map (fun s => s.packet_id) := by
  induction l with
  | nil => rfl
  | cons s rest ih =>
    by_cases hs : s.packet_id = pid
    · simp [advance_packet_slot, hs]
    · simp [advance_packet_slot, hs, ih]

/-- Id membership is unchanged by `advance`. -/
theorem any_id_advance (l : List PendingSlot) (pid q : Nat)
    (t : PacketType) :
    (advance_packet_slot l pid t).any (fun s => s.packet_id == q) =
      l.any (fun s => s.packet_id == q) := by
  have h : ∀ m : List PendingSlot, m.any (fun s => s.packet_id == q) =
      (m.map (fun s => s.packet_id)).any (fun n => n == q) := by
    intro m
    induction m with
    | nil => rfl
    | cons a am ih => simp [ih]
  rw [h, h, advance_map_id]

/-- Id multiplicity is unchanged by `advance`. -/
theorem countP_id_advance (l : List PendingSlot) (pid q : Nat)
    (t : PacketType) :
    (advance_packet_slot l pid t).countP (fun s => s.packet_id == q) =
      l.countP (fun s => s.packet_id == q) := by
  have h : ∀ m : List PendingSlot, m.countP (fun s => s.packet_id == q) =
      (m.map (fun s => s.packet_id)).countP (fun n => n == q) := by
    intro m
    induction m with
    | nil => rfl
    | cons a am ih => simp [List.countP_cons, ih]
  rw [h, h, advance_map_id]

/-- A table without the id reports UNKNOWN. -/
theorem get_expected_of_countP_zero (l : List PendingSlot) (pid : Nat)
    (h : l.countP (fun s => s.packet_id == pid) = 0) :
    get_expected_packet_answer l pid = .UNKNOWN := by
  induction l with
  | nil => rfl
  | cons s rest ih =>
    rw [List.countP_cons] at h
    by_cases hs : s.packet_id = pid
    · simp [hs] at h
    · simp only [get_expected_packet_answer, hs, if_neg, not_false_iff]
      exact ih (by omega)

/-- Releasing the only slot holding a nonzero id makes its lookup
UNKNOWN. -/
theorem get_expected_free (l : List PendingSlot) (pid : Nat)
    (hpid : pid ≠ 0)
    (hcount : l.countP (fun s => s.packet_id == pid) ≤ 1) :
    get_expected_packet_answer (free_packet_slot l pid).1 pid = .UNKNOWN := by
  induction l with
  | nil => rfl
  | cons s rest ih =>
    rw [List.countP_cons] at hcount
    by_cases hs : s.packet_id = pid
    · simp only [free_packet_slot, hs, if_pos]
      have hz : (0 : Nat) ≠ pid := fun h => hpid h.symm
      simp only [get_expected_packet_answer, hz, if_neg, not_false_iff]
      refine get_expected_of_countP_zero rest pid ?_
      have hb : (s.packet_id == pid) = true := by simp [hs]
      rw [hb] at hcount
      simp at hcount
      simpa using hcount
    · simp only [free_packet_slot, hs, if_neg, not_false_iff]
      simp only [get_expected_packet_answer, hs, if_neg, not_false_iff]
      refine ih ?_
      have hb : (s.packet_id == pid) = false := by simp [hs]
      rw [hb] at hcount
      simpa using hcount

/-- Setting a mask bit makes its `TST` hold. -/
theorem TST_or_self (x mask : Nat) : TST (x ||| mask) mask = true := by
  have h : (x ||| mask) &&& mask = mask := by
    apply Nat.eq_of_testBit_eq
    intro i
    simp only [Nat.testBit_and, Nat.testBit_or]
    cases hm : mask.testBit i <;> simp [hm]
  simp [TST, h]

/-- After clearing bit 5 (PUBREC) within the 16-bit mask and setting bit 7
(PUBCOMP) twice, bit 5 is clear. -/
theorem pubrec_bit_clear (e : Nat) :
    Nat.testBit ((CLR16 e (BIT PacketType.PUBREC.val) |||
      BIT PacketType.PUBCOMP.val) ||| BIT PacketType.PUBCOMP.val)
      PacketType.PUBREC.val = false := by
  have h1 : Nat.testBit (0xFFFF ^^^ BIT 5) 5 = false := by decide
  have h2 : Nat.testBit (BIT 7) 5 = false := by decide
  simp only [CLR16, PacketType.val, Nat.testBit_or, Nat.testBit_and, h1, h2,
    Bool.and_false, Bool.or_false]

/-- Claim C6: the QoS 2 outbound acknowledgement flow.  From any connected
state holding exactly one pending slot for `pid` awaiting PUBREC, a received
(short-form) PUBREC succeeds, sends a single packet whose type nibble is
PUBREL, leaves the slot awaiting PUBCOMP, puts PUBCOMP into the expected
mask and — when that slot was the last PUBREC awaiter — removes PUBREC from
it; a subsequent PUBCOMP for the same id succeeds and releases the slot, and
a duplicate PUBCOMP afterwards is rejected with UnexpectedPacketType. -/
theorem c6_qos2_pubrec_pubcomp_flow (c : mqtt_client) (pid : Nat)
    (net : NetBehavior)
    (hconn : c.connected = true) (hpid : pid ≠ 0)
    (hexp : get_expected_packet_answer c.pending pid = .PUBREC)
    (hcount : c.pending.countP (fun s => s.packet_id == pid) ≤ 1)
    (halloc : net.alloc_send_buf = none) (hsend : net.send = none) :
    (process_pubrec c pid net).2.1 = .ok () ∧
    (process_pubrec c pid net).2.2.length = 1 ∧
    (((process_pubrec c pid net).2.2.headD []).headD 0) >>> 4 =
      PacketType.PUBREL.val ∧
    get_expected_packet_answer (process_pubrec c pid net).1.pending pid =
      .PUBCOMP ∧
    TST (process_pubrec c pid net).1.expected_ptypes
      (BIT PacketType.PUBCOMP.val) = true ∧
    (await_for_packet (advance_packet_slot c.pending pid .PUBCOMP) .PUBREC =
        false →
      Nat.testBit (process_pubrec c pid net).1.expected_ptypes
        PacketType.PUBREC.val = false) ∧
    (process_pubcomp (process_pubrec c pid net).1 pid).2 = .ok () ∧
    get_expected_packet_answer
      (process_pubcomp (process_pubrec c pid net).1 pid).1.pending pid =
      .UNKNOWN ∧
    (process_pubcomp
      (process_pubcomp (process_pubrec c pid net).1 pid).1 pid).2 =
      .error .unexpectedPacketType := by
  have hany : c.pending.any (fun s => s.packet_id == pid) = true :=
    any_of_get_expected_ne c.pending pid (by rw [hexp]; simp)
  have hstep : process_pubrec c pid net =
      ({ c with
          pending := advance_packet_slot
            (advance_packet_slot c.pending pid .PUBCOMP) pid .PUBCOMP,
          expected_ptypes :=
            ((if await_for_packet
                  (advance_packet_slot c.pending pid .PUBCOMP) .PUBREC =
                  false then
                CLR16 c.expected_ptypes (BIT PacketType.PUBREC.val)
              else c.expected_ptypes) ||| BIT PacketType.PUBCOMP.val) |||
              BIT PacketType.PUBCOMP.val,
          pubrel := { c.pubrel with
            packet_id := pid,
            reason_code := if c.pubrel.reason_code = 0 then
              MQTT_REASON_SUCCESS else c.pubrel.reason_code } },
        .ok (),
        [make_pubrel_bytes { c.pubrel with
          packet_id := pid,
          reason_code := if c.pubrel.reason_code = 0 then
            MQTT_REASON_SUCCESS else c.pubrel.reason_code }]) := by
    simp [process_pubrec, mqtt_pubrel, hexp, hconn, hpid,
      validate_pubrel_ok, halloc, hsend]
  rw [hstep]
  have hlook1 : get_expected_packet_answer
      (advance_packet_slot (advance_packet_slot c.pending pid .PUBCOMP)
        pid .PUBCOMP) pid = .PUBCOMP := by
    rw [get_expected_advance, if_pos]
    rw [any_id_advance]
    exact hany
  have hcount1 : (advance_packet_slot
      (advance_packet_slot c.pending pid .PUBCOMP) pid .PUBCOMP).countP
      (fun s => s.packet_id == pid) ≤ 1 := by
    rw [countP_id_advance, countP_id_advance]
    exact hcount
  have hfree : get_expected_packet_answer
      (free_packet_slot (advance_packet_slot
        (advance_packet_slot c.pending pid .PUBCOMP) pid .PUBCOMP) pid).1
      pid = .UNKNOWN :=
    get_expected_free _ pid hpid hcount1
  refine ⟨rfl, rfl, ?_, hlook1, TST_or_self _ _, ?_, ?_, ?_, ?_⟩
  · simp only [make_pubrel_bytes, write_fixed_header, pack_byte,
      PacketType.val, List.singleton_append, List.cons_append,
      List.headD_cons]
    decide
  · intro hlast
    simp only [hlast, if_pos]
    exact pubrec_bit_clear c.expected_ptypes
  · simp [process_pubcomp, hlook1]
  · simp [process_pubcomp, hlook1, hfree]
  · simp only [process_pubcomp, hlook1]
    simp [process_pubcomp, hfree]

/-- Witness for the C6 theorem at a concrete state: the received PUBREC
advances slot 1 to PUBCOMP, and after the PUBCOMP releases it a duplicate
PUBCOMP is rejected with UnexpectedPacketType. -/
theorem c6_qos2_pubrec_pubcomp_flow_witness :
    get_expected_packet_answer
      (process_pubrec c6_client 1 NetBehavior.ok).1.pending 1 = .PUBCOMP ∧
    (process_pubcomp
      (process_pubcomp (process_pubrec c6_client 1 NetBehavior.ok).1 1).1
      1).2 = .error .unexpectedPacketType := by
  have h := c6_qos2_pubrec_pubcomp_flow c6_client 1 NetBehavior.ok rfl
    (by decide) (by decide) (by decide) rfl rfl
  exact ⟨h.2.2.2.1, h.2.2.2.2.2.2.2.2⟩

/-- The UTF-8 guard of `mqtt_publish` always passes on this build. -/
theorem validate_publish_ok (p : PublishProps) (topic : List Nat) :
    validate_publish_utf8_strings p topic = .ok () := by
  simp [validate_publish_utf8_strings, is_valid_utf8_true]

/-- The UTF-8 guard of `mqtt_subscribe` always passes on this build. -/
theorem validate_subscribe_ok (sp : SubscribeProps)
    (entries : List mqtt_sub_entry) :
    validate_subscribe_utf8_strings sp entries = .ok () := by
  simp [validate_subscribe_utf8_strings, is_valid_utf8_true]

/-- The build/alloc/send tail of `mqtt_publish` only produces OK or a
transport error. -/
theorem mqtt_publish_send_result (c : mqtt_client) (msg : mqtt_pub_packet)
    (net : NetBehavior) :
    (mqtt_publish_send c msg net).2.1 = .ok () ∨
    (mqtt_publish_send c msg net).2.1 = .error .outOfMemory ∨
    (mqtt_publish_send c msg net).2.1 = .error .hostUnavailable ∨
    (mqtt_publish_send c msg net).2.1 = .error .swFailure := by
  unfold mqtt_publish_send
  rcases ha : net.alloc_send_buf with _ | a
  · rcases hs : net.send with _ | b
    · simp
    · cases b <;> simp [NetErr.toMqtt]
  · cases a <;> simp [NetErr.toMqtt]

/-- When the pre-flight checks pass, `mqtt_publish` can only return OK,
OutOfResource, or a transport error. -/
theorem mqtt_publish_result_after_preflight (c : mqtt_client)
    (msg : mqtt_pub_packet) (net : NetBehavior)
    (h : mqtt_publish_preflight c msg = none) :
    (mqtt_publish c msg net).2.1 = .ok () ∨
    (mqtt_publish c msg net).2.1 = .error .outOfResource ∨
    (mqtt_publish c msg net).2.1 = .error .outOfMemory ∨
    (mqtt_publish c msg net).2.1 = .error .hostUnavailable ∨
    (mqtt_publish c msg net).2.1 = .error .swFailure := by
  unfold mqtt_publish
  simp only [h]
  by_cases hq : msg.qos > 0
  · simp only [hq, if_pos]
    rcases hr : (reserve_packet_slot_for_answer c.pending c.packet_id_count
      (if msg.qos = 2 then .PUBREC else .PUBACK)).2.2 with _ | pid
    · simp [hr]
    · simp only [hr]
      rcases mqtt_publish_send_result
        { c with
            pending := (reserve_packet_slot_for_answer c.pending
              c.packet_id_count
              (if msg.qos = 2 then .PUBREC else .PUBACK)).1,
            packet_id_count := (reserve_packet_slot_for_answer c.pending
              c.packet_id_count
              (if msg.qos = 2 then .PUBREC else .PUBACK)).2.1 }
        { msg with packet_id := pid } net with h1 | h1 | h1 | h1 <;>
        simp [h1]
  · simp only [hq, if_neg, not_false_iff]
    rcases mqtt_publish_send_result c msg net with h1 | h1 | h1 | h1 <;>
      simp [h1]

/-- Claim C8, counterexample: with the session connected and every other
check passing, publishing to the topic `ED A0 80` — an encoded surrogate,
hence not valid RFC 3629 UTF-8 (second conjunct) — is NOT rejected with
InvalidEncoding, because `is_valid_utf8` accepts every byte string on this
build (see the C2 analysis). -/
theorem c8_surrogate_topic_not_rejected :
    (mqtt_publish
      { mqtt_create_client with
          connected := true, max_qos := 2, retain_avail := true }
      ⟨[0xED, 0xA0, 0x80], ⟨some [0x68], 1⟩, 0, false, false, 0⟩
      NetBehavior.ok).2.1 ≠ .error .invalidEncoding ∧
    is_valid_utf8_uchar [0xED, 0xA0, 0x80] = false := by
  constructor
  · intro hcontra
    rw [show (mqtt_publish
        { mqtt_create_client with
            connected := true, max_qos := 2, retain_avail := true }
        ⟨[0xED, 0xA0, 0x80], ⟨some [0x68], 1⟩, 0, false, false, 0⟩
        NetBehavior.ok).2.1 = Except.ok () from rfl] at hcontra
    exact Except.noConfusion hcontra
  · decide

/-- Claim C8, amended: the pre-flight checks of `mqtt_publish`, as the code
performs them.  Each listed error is returned exactly under its documented
condition (given that the checks preceding it in source order pass);
whenever the pre-flight function reports an error `mqtt_publish` returns
exactly that error without building anything; when all checks pass none of
the six pre-flight errors is returned.  The one amendment against the
claim: InvalidEncoding is never returned, because `is_valid_utf8` accepts
every byte string on this build. -/
theorem c8_publish_preflight_checks (c : mqtt_client)
    (msg : mqtt_pub_packet) (net : NetBehavior) :
    (mqtt_publish_preflight c msg = some .notConnected ↔
      c.connected = false) ∧
    (c.connected = true →
      (mqtt_publish_preflight c msg = some .invalidQoS ↔ msg.qos > 2)) ∧
    (c.connected = true → msg.qos ≤ 2 →
      (mqtt_publish_preflight c msg = some .qosNotSupported ↔
        msg.qos > c.max_qos)) ∧
    (c.connected = true → msg.qos ≤ 2 → msg.qos ≤ c.max_qos →
      (mqtt_publish_preflight c msg = some .retainNotSupported ↔
        msg.retain = true ∧ c.retain_avail = false)) ∧
    (c.connected = true → msg.qos ≤ 2 → msg.qos ≤ c.max_qos →
      (msg.retain = true → c.retain_avail = true) →
      (mqtt_publish_preflight c msg = some .invalidTopic ↔
        (msg.topic.contains 43 = true ∨ msg.topic.contains 35 = true))) ∧
    mqtt_publish_preflight c msg ≠ some .invalidEncoding ∧
    (∀ e, mqtt_publish_preflight c msg = some e →
      (mqtt_publish c msg net).2.1 = .error e) ∧
    (mqtt_publish_preflight c msg = none →
      ∀ e, e = MqttError.notConnected ∨ e = .invalidQoS ∨
        e = .qosNotSupported ∨ e = .retainNotSupported ∨
        e = .invalidTopic ∨ e = .invalidEncoding →
        (mqtt_publish c msg net).2.1 ≠ .error e) := by
  have hval := validate_publish_ok c.publish msg.topic
  refine ⟨?_, ?_, ?_, ?_, ?_, ?_, ?_, ?_⟩
  · by_cases h1 : c.connected = false <;>
      simp [mqtt_publish_preflight, hval, h1] <;> split_ifs <;> simp
  · intro h1
    have h1' : ¬ (c.connected = false) := by simp [h1]
    by_cases h2 : msg.qos > 2 <;>
      simp [mqtt_publish_preflight, hval, h1', h2] <;> split_ifs <;> simp
  · intro h1 h2
    have h1' : ¬ (c.connected = false) := by simp [h1]
    have h2' : ¬ (msg.qos > 2) := by omega
    by_cases h3 : msg.qos > c.max_qos <;>
      simp [mqtt_publish_preflight, hval, h1', h2', h3] <;>
      split_ifs <;> simp
  · intro h1 h2 h3
    have h1' : ¬ (c.connected = false) := by simp [h1]
    have h2' : ¬ (msg.qos > 2) := by omega
    have h3' : ¬ (msg.qos > c.max_qos) := by omega
    by_cases h4 : msg.retain = true ∧ c.retain_avail = false <;>
      simp [mqtt_publish_preflight, hval, h1', h2', h3', h4] <;>
      split_ifs <;> simp
  · intro h1 h2 h3 h4
    have h1' : ¬ (c.connected = false) := by simp [h1]
    have h2' : ¬ (msg.qos > 2) := by omega
    have h3' : ¬ (msg.qos > c.max_qos) := by omega
    have h4' : ¬ (msg.retain = true ∧ c.retain_avail = false) := by
      rintro ⟨a, b⟩
      rw [h4 a] at b
      simp at b
    by_cases h5 : msg.topic.contains 43 = true ∨ msg.topic.contains 35 = true <;>
      simp [mqtt_publish_preflight, hval, h1', h2', h3', h4', h5] <;> tauto
  · simp only [mqtt_publish_preflight, hval]
    split_ifs <;> simp
  · intro e he
    simp [mqtt_publish, he]
  · intro h e he hcontra
    rcases he with rfl | rfl | rfl | rfl | rfl | rfl <;>
      rcases mqtt_publish_result_after_preflight c msg net h with
        h1 | h1 | h1 | h1 | h1 <;> rw [h1] at hcontra <;> simp at hcontra

/-- Witness for the amended C8 theorem: on a connected client advertising
max QoS 2, a publish with qos 3 trips exactly the InvalidQoS check. -/
theorem c8_publish_preflight_checks_witness :
    mqtt_publish_preflight
      { mqtt_create_client with
          connected := true, max_qos := 2, retain_avail := true }
      ⟨[0x61], ⟨none, 0⟩, 3, false, false, 0⟩ = some .invalidQoS ↔
      (3 : Nat) > 2 :=
  (c8_publish_preflight_checks
    { mqtt_create_client with
        connected := true, max_qos := 2, retain_avail := true }
    ⟨[0x61], ⟨none, 0⟩, 3, false, false, 0⟩ NetBehavior.ok).2.1 rfl

/-- A table with a free slot always grants an outbound reservation, with
the minted id. -/
theorem reserve_answer_of_any_free (l : List PendingSlot) (cnt : Nat)
    (aw : PacketType) (h : l.any (fun s => s.packet_id == 0) = true) :
    (reserve_packet_slot_for_answer l cnt aw).2.2 =
      some (mint_packet_id cnt) := by
  induction l with
  | nil => simp at h
  | cons s rest ih =>
    by_cases hs : s.packet_id = 0
    · simp [reserve_packet_slot_for_answer, hs]
    · simp only [List.any_cons] at h
      have hb : (s.packet_id == 0) = false := by simp [hs]
      rw [hb] at h
      have h' : rest.any (fun s => s.packet_id == 0) = true := by
        simpa using h
      simp [reserve_packet_slot_for_answer, hs]
      exact ih h'

/-- A granted outbound reservation grows the set of live ids by exactly
one. -/
theorem liveIds_length_reserve_answer (l : List PendingSlot) (cnt : Nat)
    (aw : PacketType) (h : l.any (fun s => s.packet_id == 0) = true) :
    (liveIds (reserve_packet_slot_for_answer l cnt aw).1).length =
      (liveIds l).length + 1 := by
  induction l with
  | nil => simp at h
  | cons s rest ih =>
    by_cases hs : s.packet_id = 0
    · simp only [reserve_packet_slot_for_answer, hs, if_pos]
      rw [liveIds_cons, if_neg (mint_packet_id_ne_zero cnt),
        liveIds_cons, if_pos hs]
      simp
    · simp only [List.any_cons] at h
      have hb : (s.packet_id == 0) = false := by simp [hs]
      rw [hb] at h
      have h' : rest.any (fun s => s.packet_id == 0) = true := by
        simpa using h
      simp only [reserve_packet_slot_for_answer, hs, if_neg, not_false_iff]
      rw [liveIds_cons, if_neg hs, liveIds_cons, if_neg hs]
      simp [ih h']

/-- Claim C9: a failure after the pending-slot reservation leaks the slot.
(1) `mqtt_publish` with qos 1 or 2 whose pre-flight checks pass and whose
send-buffer allocation fails returns the transport error with the reserved
slot still live (one more live id than before); (2) the same when the
transport `send` fails; (3) `mqtt_subscribe` reserves its SUBACK slot
before validating the entries, so an entry failing validation (here
`qos > 2`) returns InvalidQoS with the slot still live. -/
theorem c9_failed_call_leaks_pending_slot :
    (∀ (c : mqtt_client) (msg : mqtt_pub_packet) (net : NetBehavior)
        (e : NetErr),
      c.connected = true → (msg.qos = 1 ∨ msg.qos = 2) →
      msg.qos ≤ c.max_qos → (msg.retain = true → c.retain_avail = true) →
      43 ∉ msg.topic → 35 ∉ msg.topic →
      c.pending.any (fun s => s.packet_id == 0) = true →
      net.alloc_send_buf = some e →
      (mqtt_publish c msg net).2.1 = .error e.toMqtt ∧
      (liveIds (mqtt_publish c msg net).1.pending).length =
        (liveIds c.pending).length + 1) ∧
    (∀ (c : mqtt_client) (msg : mqtt_pub_packet) (net : NetBehavior)
        (e : NetErr),
      c.connected = true → (msg.qos = 1 ∨ msg.qos = 2) →
      msg.qos ≤ c.max_qos → (msg.retain = true → c.retain_avail = true) →
      43 ∉ msg.topic → 35 ∉ msg.topic →
      c.pending.any (fun s => s.packet_id == 0) = true →
      net.alloc_send_buf = none → net.send = some e →
      (mqtt_publish c msg net).2.1 = .error e.toMqtt ∧
      (liveIds (mqtt_publish c msg net).1.pending).length =
        (liveIds c.pending).length + 1) ∧
    (∀ (c : mqtt_client) (en : mqtt_sub_entry) (net : NetBehavior),
      c.connected = true →
      c.pending.any (fun s => s.packet_id == 0) = true →
      en.qos > 2 →
      (mqtt_subscribe c [en] net).2.1 = .error .invalidQoS ∧
      (liveIds (mqtt_subscribe c [en] net).1.pending).length =
        (liveIds c.pending).length + 1) := by
  refine ⟨?_, ?_, ?_⟩
  · intro c msg net e hconn hq hqm hret h43 h35 hfree halloc
    have h1' : ¬ (c.connected = false) := by simp [hconn]
    have h2' : ¬ (msg.qos > 2) := by rcases hq with h | h <;> omega
    have h3' : ¬ (msg.qos > c.max_qos) := by omega
    have h4' : ¬ (msg.retain = true ∧ c.retain_avail = false) := by
      rintro ⟨a, b⟩
      rw [hret a] at b
      simp at b
    have hpre : mqtt_publish_preflight c msg = none := by
      simp [mqtt_publish_preflight, validate_publish_ok, h1', h2', h3',
        h4', h43, h35]
    have hq0 : msg.qos > 0 := by rcases hq with h | h <;> omega
    have hres := reserve_answer_of_any_free c.pending c.packet_id_count
      (if msg.qos = 2 then .PUBREC else .PUBACK) hfree
    constructor
    · simp [mqtt_publish, hpre, hq0, hres, mqtt_publish_send, halloc]
    · simp only [mqtt_publish, hpre, hq0, if_pos, hres,
        mqtt_publish_send, halloc]
      exact liveIds_length_reserve_answer _ _ _ hfree
  · intro c msg net e hconn hq hqm hret h43 h35 hfree halloc hsend
    have h1' : ¬ (c.connected = false) := by simp [hconn]
    have h2' : ¬ (msg.qos > 2) := by rcases hq with h | h <;> omega
    have h3' : ¬ (msg.qos > c.max_qos) := by omega
    have h4' : ¬ (msg.retain = true ∧ c.retain_avail = false) := by
      rintro ⟨a, b⟩
      rw [hret a] at b
      simp at b
    have hpre : mqtt_publish_preflight c msg = none := by
      simp [mqtt_publish_preflight, validate_publish_ok, h1', h2', h3',
        h4', h43, h35]
    have hq0 : msg.qos > 0 := by rcases hq with h | h <;> omega
    have hres := reserve_answer_of_any_free c.pending c.packet_id_count
      (if msg.qos = 2 then .PUBREC else .PUBACK) hfree
    constructor
    · simp [mqtt_publish, hpre, hq0, hres, mqtt_publish_send, halloc, hsend]
    · simp only [mqtt_publish, hpre, hq0, if_pos, hres,
        mqtt_publish_send, halloc, hsend]
      exact liveIds_length_reserve_answer _ _ _ hfree
  · intro c en net hconn hfree hq3
    have h1' : ¬ (c.connected = false) := by simp [hconn]
    have hres := reserve_answer_of_any_free c.pending c.packet_id_count
      .SUBACK hfree
    constructor
    · simp [mqtt_subscribe, h1', hres, validate_subscribe_ok,
        validate_sub_entries, hq3]
    · simp only [mqtt_subscribe, List.isEmpty_cons, h1', if_neg,
        not_false_iff, Bool.false_eq_true, hres, validate_subscribe_ok,
        validate_sub_entries, hq3, if_pos]
      exact liveIds_length_reserve_answer _ _ _ hfree

/-- Witness for the C9 theorem: on a connected client with an empty pending
table, a qos 1 publish whose buffer allocation fails with OutOfMemory
surfaces that error and leaves one live (leaked) pending entry. -/
theorem c9_failed_call_leaks_pending_slot_witness :
    (mqtt_publish
      { mqtt_create_client with
          connected := true, max_qos := 2, retain_avail := true }
      ⟨[0x61], ⟨none, 0⟩, 1, false, false, 0⟩
      ⟨some .outOfMemory, none⟩).2.1 = .error .outOfMemory ∧
    (liveIds (mqtt_publish
      { mqtt_create_client with
          connected := true, max_qos := 2, retain_avail := true }
      ⟨[0x61], ⟨none, 0⟩, 1, false, false, 0⟩
      ⟨some .outOfMemory, none⟩).1.pending).length =
      (liveIds ({ mqtt_create_client with
          connected := true, max_qos := 2,
          retain_avail := true } : mqtt_client).pending).length + 1 :=
  c9_failed_call_leaks_pending_slot.1
    { mqtt_create_client with
        connected := true, max_qos := 2, retain_avail := true }
    ⟨[0x61], ⟨none, 0⟩, 1, false, false, 0⟩
    ⟨some .outOfMemory, none⟩ .outOfMemory rfl (Or.inl rfl) (by decide)
    (by simp) (by decide) (by decide) (by decide) rfl

/-- Claim C10: a dispatched inbound PINGREQ (whose bit is in the mask a
fresh client starts with) is answered by calling `mqtt_ping`, which sends a
PINGREQ packet of the client's own — bytes `C0 00`, type nibble 12 =
PINGREQ, not 13 = PINGRESP — and on successful send adds PINGRESP to the
expected mask. -/
theorem c10_pingreq_dispatches_mqtt_ping (c : mqtt_client)
    (net : NetBehavior) (hconn : c.connected = true)
    (halloc : net.alloc_send_buf = none) (hsend : net.send = none) :
    TST mqtt_create_client.expected_ptypes
      (BIT PacketType.PINGREQ.val) = true ∧
    (∀ pid, process_packet c .PINGREQ pid net = mqtt_ping c net) ∧
    (mqtt_ping c net).2.1 = .ok () ∧
    (mqtt_ping c net).2.2 = [[0xC0, 0x00]] ∧
    (0xC0 : Nat) >>> 4 = PacketType.PINGREQ.val ∧
    PacketType.PINGREQ.val ≠ PacketType.PINGRESP.val ∧
    Nat.testBit (mqtt_ping c net).1.expected_ptypes
      PacketType.PINGRESP.val = true := by
  have h1' : ¬ (c.connected = false) := by simp [hconn]
  refine ⟨by decide, fun pid => rfl, ?_, ?_, by decide, by decide, ?_⟩
  · simp [mqtt_ping, h1', halloc, hsend]
  · simp [mqtt_ping, h1', halloc, hsend, make_pingreq_bytes,
      write_fixed_header, pack_byte, pack_variable_size,
      pack_variable_size_go, PacketType.val]
    decide
  · simp only [mqtt_ping, h1', if_neg, not_false_iff, halloc, hsend]
    have hb : Nat.testBit (BIT PacketType.PINGRESP.val)
      PacketType.PINGRESP.val = true := by decide
    simp [Nat.testBit_or, hb]

/-- Witness for the C10 theorem on a fresh connected client with a
succeeding transport. -/
theorem c10_pingreq_dispatches_mqtt_ping_witness :
    (mqtt_ping { mqtt_create_client with connected := true }
      NetBehavior.ok).2.2 = [[0xC0, 0x00]] ∧
    Nat.testBit (mqtt_ping { mqtt_create_client with connected := true }
      NetBehavior.ok).1.expected_ptypes PacketType.PINGRESP.val = true :=
  ⟨(c10_pingreq_dispatches_mqtt_ping
      { mqtt_create_client with connected := true }
      NetBehavior.ok rfl rfl rfl).2.2.2.1,
    (c10_pingreq_dispatches_mqtt_ping
      { mqtt_create_client with connected := true }
      NetBehavior.ok rfl rfl rfl).2.2.2.2.2.2⟩

end MQLite
